import Mathlib

/-!
# BlockGen: transaction shape dispatch, signing and the HTTP handler

A shallow embedding of `src/Block/Struct.go`, `src/Block/block.go`,
`src/Block/TxnHash.go` and `src/main.go`.

Conventions of the embedding

* A Go pointer `*big.Int` / `*common.Address` is an `Option`; `nil` is `none`.
* A Go slice whose nil-ness is inspected by the program (`AccessList`) is a
  `Slice`, an optional list: `none` is the nil slice, `some []` the empty
  non-nil slice.  Slices whose nil-ness is never inspected (`Data`,
  `StorageKeys`) are plain lists.
* `uint64` / `int64` values are `Nat` / `Int`; the program performs no
  arithmetic on them, so no wrap-around can occur.
* Calls into go-ethereum, the HD wallet library, the JSON decoder and the file
  system are fields of `Env`.  Every call that has an effect outside the
  process or uses the private key is recorded in a trace of `Event`s.
* `(*big.Int).SetString(s, 10)` and `(*big.Int).String()` of the Go standard
  library decide the control flow of the handler and are embedded as
  definitions.
-/

/-! ## Go values -/

/-- Go slice with observable nil-ness. -/
abbrev Slice (α : Type) := Option (List α)

/-- Go `len(s)`: the nil slice has length zero. -/
def Slice.len {α : Type} : Slice α → Nat
  | none => 0
  | some xs => xs.length

/-- Elements visited by `for i, x := range s`. -/
def Slice.elems {α : Type} : Slice α → List α
  | none => []
  | some xs => xs

/-- Go idiom `result := make([]T, len(xs)); for i, x := range xs { result[i] = f(x) }`:
allocate `len(xs)` zero values, then overwrite index `i` in iteration order. -/
def fillByIndex {α β : Type} (zero : β) (f : α → β) (xs : List α) : List β :=
  xs.enum.foldl (fun result p => result.set p.1 (f p.2)) (List.replicate xs.length zero)

/-- Type `common.Address` (20 bytes). -/
structure common.Address where
  bytes : List Nat
deriving DecidableEq, Repr

/-- Type `common.Hash` (32 bytes). -/
structure common.Hash where
  bytes : List Nat
deriving DecidableEq, Repr

/-- Zero value of `common.Address`. -/
def common.Address.zero : common.Address := ⟨List.replicate 20 0⟩

/-- Zero value of `common.Hash`. -/
def common.Hash.zero : common.Hash := ⟨List.replicate 32 0⟩

/-- Type `*ecdsa.PrivateKey`. -/
structure PrivateKey where
  d : Nat
deriving DecidableEq, Repr

/-! ## `math/big` -/

/-- Digit loop of `nat.scan` for base 10 without fraction: consume leading
decimal digits, accumulating the value and the digit count; stop at the first
other character, which is left unread. Returns value, count and the unread rest. -/
def scanDigits : List Char → Nat → Nat → Nat × Nat × List Char
  | [], acc, count => (acc, count, [])
  | ch :: rest, acc, count =>
    if '0' ≤ ch ∧ ch ≤ '9' then
      scanDigits rest (acc * 10 + (ch.toNat - '0'.toNat)) (count + 1)
    else
      (acc, count, ch :: rest)

/-- Function `scanSign`: one optional leading `-` or `+`; fails on empty input. -/
def scanSign : List Char → Option (Bool × List Char)
  | [] => none
  | ch :: rest =>
    if ch = '-' then some (true, rest)
    else if ch = '+' then some (false, rest)
    else some (false, ch :: rest)

/-- Method `new(big.Int).SetString(s, 10)`: `scanSign`, then `nat.scan`, which
fails when no digit was read; the entire input must be consumed; zero has no
sign. `none` is the `ok == false` result. -/
def bigSetString10 (s : String) : Option Int :=
  match scanSign s.toList with
  | none => none
  | some (neg, cs) =>
    match scanDigits cs 0 0 with
    | (abs, count, rest) =>
      if count = 0 then none
      else if rest ≠ [] then none
      else some (if abs ≠ 0 ∧ neg = true then -(abs : Int) else (abs : Int))

/-- Method `(*big.Int).String()`: decimal text, `<nil>` for a nil pointer. -/
def bigString : Option Int → String
  | none => "<nil>"
  | some (Int.ofNat n) => Nat.repr n
  | some (Int.negSucc n) => "-" ++ Nat.repr (n + 1)

/-! ## go-ethereum `core/types` -/

namespace types

/-- Struct `types.AccessTuple`. -/
structure AccessTuple where
  Address : common.Address
  StorageKeys : List common.Hash
deriving DecidableEq, Repr

/-- Struct `types.DynamicFeeTx`. -/
structure DynamicFeeTx where
  ChainID : Option Int := none
  Nonce : Nat := 0
  GasTipCap : Option Int := none
  GasFeeCap : Option Int := none
  Gas : Nat := 0
  To : Option common.Address := none
  Value : Option Int := none
  Data : List Nat := []
  AccessList : List AccessTuple := []
  V : Option Int := none
  R : Option Int := none
  S : Option Int := none
deriving DecidableEq, Repr

/-- Struct `types.AccessListTx`. -/
structure AccessListTx where
  ChainID : Option Int := none
  Nonce : Nat := 0
  GasPrice : Option Int := none
  Gas : Nat := 0
  To : Option common.Address := none
  Value : Option Int := none
  Data : List Nat := []
  AccessList : List AccessTuple := []
  V : Option Int := none
  R : Option Int := none
  S : Option Int := none
deriving DecidableEq, Repr

/-- Struct `types.LegacyTx`. -/
structure LegacyTx where
  Nonce : Nat := 0
  GasPrice : Option Int := none
  Gas : Nat := 0
  To : Option common.Address := none
  Value : Option Int := none
  Data : List Nat := []
  V : Option Int := none
  R : Option Int := none
  S : Option Int := none
deriving DecidableEq, Repr

/-- Value handed to `types.NewTx`: one of the three payload shapes. -/
inductive TxData where
  | dynamicFee (t : DynamicFeeTx)
  | accessList (t : AccessListTx)
  | legacy (t : LegacyTx)
deriving DecidableEq, Repr

/-- The three transaction shapes. -/
inductive Shape where
  | feeMarket
  | accessList
  | legacy
deriving DecidableEq, Repr

/-- Shape of a library transaction payload. -/
def TxData.shape : TxData → Shape
  | .dynamicFee _ => .feeMarket
  | .accessList _ => .accessList
  | .legacy _ => .legacy

/-- Result of `signedTx.RawSignatureValues()` after a successful `types.SignTx`:
go-ethereum allocates all three integers, so none of them is nil. -/
structure Signature where
  v : Int
  r : Int
  s : Int
deriving DecidableEq, Repr

/-- The signed transaction in the words of the specification: the payload that
was signed, with the same field values plus the `V`, `R`, `S` that signing
produced. -/
def TxData.withSignature : TxData → Signature → TxData
  | .dynamicFee t, sig =>
    .dynamicFee { t with V := some sig.v, R := some sig.r, S := some sig.s }
  | .accessList t, sig =>
    .accessList { t with V := some sig.v, R := some sig.r, S := some sig.s }
  | .legacy t, sig =>
    .legacy { t with V := some sig.v, R := some sig.r, S := some sig.s }

end types

/-! ## External collaborators -/


/-- Struct `Block.AccountInfo`. -/
structure Block.AccountInfo where
  DID : String := ""
  Mnemonic : String := ""
  PublicKey : String := ""
deriving DecidableEq, Repr

/-- Handle of an HD wallet (`*hdwallet.Wallet`). -/
structure Wallet where
  seed : List Nat
deriving DecidableEq, Repr

/-- Derived account (`accounts.Account`); only its address is used. -/
structure Account where
  Address : common.Address
deriving DecidableEq, Repr

/-- Library and operating-system calls made by the program. -/
structure Env where
  /-- Call `os.ReadFile(path)`. -/
  readFile : String → Except String (List Nat)
  /-- Call `json.Unmarshal(data, &account)`. -/
  unmarshalAccount : List Nat → Except String Block.AccountInfo
  /-- Call `hdwallet.NewFromMnemonic(mnemonic)`. -/
  newFromMnemonic : String → Except String Wallet
  /-- Call `wallet.Derive(path, false)` at the fixed BIP-44 path. -/
  derive : Wallet → Except String Account
  /-- Call `wallet.PrivateKey(account)`. -/
  privateKey : Wallet → Account → Except String PrivateKey
  /-- Calls `types.LatestSignerForChainID(chainID)`, `types.SignTx` and
  `RawSignatureValues` on the fresh `types.NewTx` of the payload. -/
  signTx : types.TxData → Option Int → PrivateKey → Except String types.Signature
  /-- Call `common.HexToAddress(s)`. -/
  hexToAddress : String → common.Address
  /-- Call `common.HexToHash(s)`. -/
  hexToHash : String → common.Hash
  /-- Method `Address.Hex()`. -/
  addressHex : common.Address → String
  /-- Method `Hash.Hex()`, also `Hash.String()`. -/
  hashHex : common.Hash → String
  /-- Method `ethTx.Hash()` on the `types.NewTx` of the payload. -/
  txHash : types.TxData → common.Hash

/-- Observable calls: reading the credential file and signing with the key. An
event records that the call was made, whatever its outcome. -/
inductive Event where
  | readFile (path : String)
  | signTx (tx : types.TxData) (chainID : Option Int) (key : PrivateKey)
deriving DecidableEq, Repr

/-- Shape of the payload signed by an event, if the event is a signing call. -/
def Event.signedShape : Event → Option types.Shape
  | .readFile _ => none
  | .signTx tx _ _ => some tx.shape

/-- Chain id handed to the signer by an event, if the event is a signing call. -/
def Event.signedChainID : Event → Option (Option Int)
  | .readFile _ => none
  | .signTx _ c _ => some c

/-! ## `src/Block/Struct.go` -/

namespace Block

/-- Struct `Block.AccessTuple`. -/
structure AccessTuple where
  Address : common.Address
  StorageKeys : List common.Hash
deriving DecidableEq, Repr

/-- Type `Block.AccessList`. -/
abbrev AccessList := Slice AccessTuple

/-- Struct `Block.Transaction`; the defaults are the Go zero values. -/
structure Transaction where
  ChainID : Option Int := none
  Nonce : Nat := 0
  To : Option common.Address := none
  Value : Option Int := none
  Data : List Nat := []
  GasLimit : Nat := 0
  GasPrice : Option Int := none
  MaxPriorityFeePerGas : Option Int := none
  MaxFeePerGas : Option Int := none
  AccessList : AccessList := none
  V : Option Int := none
  R : Option Int := none
  S : Option Int := none
deriving DecidableEq, Repr

/-! ## `src/Block/block.go` -/

/-- Function `GetPrivateKeyFromMnemonic`. -/
def GetPrivateKeyFromMnemonic (env : Env) (mnemonic : String) :
    Except String (PrivateKey × common.Address) :=
  match env.newFromMnemonic mnemonic with
  | .error err => .error ("failed to create wallet from mnemonic: " ++ err)
  | .ok wallet =>
    match env.derive wallet with
    | .error err => .error ("failed to derive account: " ++ err)
    | .ok account =>
      match env.privateKey wallet account with
      | .error err => .error ("failed to get private key: " ++ err)
      | .ok privateKey => .ok (privateKey, account.Address)

/-- Function `LoadAccountInfo`; the trace records the file read. -/
def LoadAccountInfo (env : Env) (filePath : String) :
    Except String AccountInfo × List Event :=
  match env.readFile filePath with
  | .error err => (.error ("error reading account file: " ++ err), [.readFile filePath])
  | .ok data =>
    match env.unmarshalAccount data with
    | .error err => (.error ("error parsing account data: " ++ err), [.readFile filePath])
    | .ok account => (.ok account, [.readFile filePath])

/-- Function `convertAccessList`. -/
def convertAccessList (accessList : AccessList) : List types.AccessTuple :=
  fillByIndex (types.AccessTuple.mk common.Address.zero [])
    (fun tuple => { Address := tuple.Address, StorageKeys := tuple.StorageKeys })
    accessList.elems

/-- The `switch` of `signTransaction`: the payload given to `types.NewTx`. -/
def buildEthTx (tx : Transaction) (chainID : Option Int) : types.TxData :=
  if tx.MaxFeePerGas ≠ none then
    let accessList := convertAccessList tx.AccessList
    .dynamicFee {
      ChainID := chainID
      Nonce := tx.Nonce
      GasTipCap := tx.MaxPriorityFeePerGas
      GasFeeCap := tx.MaxFeePerGas
      Gas := tx.GasLimit
      To := tx.To
      Value := tx.Value
      Data := tx.Data
      AccessList := accessList }
  else if tx.AccessList ≠ none ∧ tx.AccessList.len > 0 then
    let accessList := convertAccessList tx.AccessList
    .accessList {
      ChainID := chainID
      Nonce := tx.Nonce
      GasPrice := tx.GasPrice
      Gas := tx.GasLimit
      To := tx.To
      Value := tx.Value
      Data := tx.Data
      AccessList := accessList }
  else
    .legacy {
      Nonce := tx.Nonce
      GasPrice := tx.GasPrice
      Gas := tx.GasLimit
      To := tx.To
      Value := tx.Value
      Data := tx.Data }

/-- Outcome of `signTransaction(tx, privateKey, chainID)`. -/
structure SignOut where
  /-- Returned pair `(*Transaction, error)`; a returned pointer is `tx` itself. -/
  ret : Except String Transaction
  /-- Contents of `*tx` when the call returns. -/
  mem : Transaction
  /-- Calls made. -/
  trace : List Event
deriving Repr

/-- Function `signTransaction`. -/
def signTransaction (env : Env) (tx : Transaction) (privateKey : PrivateKey)
    (chainID : Option Int) : SignOut :=
  let ethTx := buildEthTx tx chainID
  match env.signTx ethTx chainID privateKey with
  | .error err =>
    { ret := .error ("failed to sign transaction: " ++ err), mem := tx,
      trace := [.signTx ethTx chainID privateKey] }
  | .ok sig =>
    let tx1 := { tx with V := some sig.v, R := some sig.r, S := some sig.s }
    { ret := .ok tx1, mem := tx1, trace := [.signTx ethTx chainID privateKey] }

/-- Common prologue of the three builders: load the account, derive the key. -/
def loadKey (env : Env) (accountPath : String) : Except String PrivateKey × List Event :=
  match LoadAccountInfo env accountPath with
  | (.error err, tr) => (.error ("failed to load account: " ++ err), tr)
  | (.ok accountInfo, tr) =>
    match GetPrivateKeyFromMnemonic env accountInfo.Mnemonic with
    | .error err => (.error ("failed to get private key: " ++ err), tr)
    | .ok (privateKey, _) => (.ok privateKey, tr)

/-- Function `GenerateLegacyTransaction`. -/
def GenerateLegacyTransaction (env : Env) (accountPath : String) (chainID : Option Int)
    (recipient : String) (amount : Option Int) (nonce gasLimit : Nat) (gasPrice : Option Int)
    (data : List Nat) : Except String Transaction × List Event :=
  match loadKey env accountPath with
  | (.error err, tr) => (.error err, tr)
  | (.ok privateKey, tr) =>
    let toAddr := env.hexToAddress recipient
    let tx : Transaction := {
      ChainID := chainID
      Nonce := nonce
      To := some toAddr
      Value := amount
      GasLimit := gasLimit
      GasPrice := gasPrice
      Data := data }
    let out := signTransaction env tx privateKey chainID
    (out.ret, tr ++ out.trace)

/-- Function `GenerateEIP2930Transaction`. -/
def GenerateEIP2930Transaction (env : Env) (accountPath : String) (chainID : Option Int)
    (recipient : String) (amount : Option Int) (nonce gasLimit : Nat) (gasPrice : Option Int)
    (data : List Nat) (accessList : AccessList) : Except String Transaction × List Event :=
  match loadKey env accountPath with
  | (.error err, tr) => (.error err, tr)
  | (.ok privateKey, tr) =>
    let toAddr := env.hexToAddress recipient
    let tx : Transaction := {
      ChainID := chainID
      Nonce := nonce
      To := some toAddr
      Value := amount
      GasLimit := gasLimit
      GasPrice := gasPrice
      AccessList := accessList
      Data := data }
    let out := signTransaction env tx privateKey chainID
    (out.ret, tr ++ out.trace)

/-- Function `GenerateEIP1559Transaction`. -/
def GenerateEIP1559Transaction (env : Env) (accountPath : String) (chainID : Option Int)
    (recipient : String) (amount : Option Int) (nonce gasLimit : Nat)
    (maxFeePerGas maxPriorityFeePerGas : Option Int) (data : List Nat)
    (accessList : AccessList) : Except String Transaction × List Event :=
  match loadKey env accountPath with
  | (.error err, tr) => (.error err, tr)
  | (.ok privateKey, tr) =>
    let toAddr := env.hexToAddress recipient
    let tx : Transaction := {
      ChainID := chainID
      Nonce := nonce
      To := some toAddr
      Value := amount
      GasLimit := gasLimit
      MaxFeePerGas := maxFeePerGas
      MaxPriorityFeePerGas := maxPriorityFeePerGas
      AccessList := accessList
      Data := data }
    let out := signTransaction env tx privateKey chainID
    (out.ret, tr ++ out.trace)

/-! ## `src/Block/TxnHash.go` -/

/-- The `switch` of `Hash`: the payload given to `types.NewTx`. -/
def hashEthTx (tx : Transaction) : types.TxData :=
  if tx.MaxFeePerGas ≠ none then
    let accessList := convertAccessList tx.AccessList
    .dynamicFee {
      ChainID := tx.ChainID
      Nonce := tx.Nonce
      GasTipCap := tx.MaxPriorityFeePerGas
      GasFeeCap := tx.MaxFeePerGas
      Gas := tx.GasLimit
      To := tx.To
      Value := tx.Value
      Data := tx.Data
      AccessList := accessList
      V := tx.V
      R := tx.R
      S := tx.S }
  else if tx.AccessList ≠ none ∧ tx.AccessList.len > 0 then
    let accessList := convertAccessList tx.AccessList
    .accessList {
      ChainID := tx.ChainID
      Nonce := tx.Nonce
      GasPrice := tx.GasPrice
      Gas := tx.GasLimit
      To := tx.To
      Value := tx.Value
      Data := tx.Data
      AccessList := accessList
      V := tx.V
      R := tx.R
      S := tx.S }
  else
    .legacy {
      Nonce := tx.Nonce
      GasPrice := tx.GasPrice
      Gas := tx.GasLimit
      To := tx.To
      Value := tx.Value
      Data := tx.Data
      V := tx.V
      R := tx.R
      S := tx.S }

/-- Function `Hash`. -/
def Hash (env : Env) (tx : Transaction) : common.Hash :=
  env.txHash (hashEthTx tx)

end Block

/-! ## `src/main.go` -/

namespace Main

/-- Struct `AccessTuple` of package `main` (JSON form). -/
structure AccessTuple where
  Address : String := ""
  StorageKeys : List String := []
deriving DecidableEq, Repr

/-- Struct `TransactionRequest` after JSON decoding; absent members hold the Go
zero value. `Data` is a Go string, kept as its bytes, so that the conversions
`[]byte(s)` and `string(b)` are the identity. -/
structure TransactionRequest where
  RecipientAddress : String := ""
  Amount : String := ""
  Nonce : Nat := 0
  GasLimit : Nat := 0
  GasPrice : String := ""
  Data : List Nat := []
  MaxPriorityFee : String := ""
  MaxFee : String := ""
  ChainID : Int := 0
  AccessList : Slice AccessTuple := none
deriving DecidableEq, Repr

/-- Struct `TxnsType`. -/
structure TxnsType where
  TxnType : String := ""
  Txn : TransactionRequest := {}
deriving DecidableEq, Repr

/-- Struct `TransactionData`. -/
structure TransactionData where
  ChainID : String := ""
  Nonce : Nat := 0
  To : String := ""
  Value : String := ""
  Data : List Nat := []
  GasLimit : Nat := 0
  GasPrice : String := ""
  MaxPriorityFeePerGas : String := ""
  MaxFeePerGas : String := ""
  AccessList : Slice AccessTuple := none
  V : String := ""
  R : String := ""
  S : String := ""
  Typ : String := ""
deriving DecidableEq, Repr

/-- Struct `FullTxn`. -/
structure FullTxn where
  Transaction : TransactionData
  TransactionHash : String
deriving DecidableEq, Repr

/-- Struct `TransactionResponse`; a `none` member is omitted from the JSON. -/
structure TransactionResponse where
  LegacyTx : Option FullTxn := none
  EIP1559Tx : Option FullTxn := none
deriving DecidableEq, Repr

/-- Second argument of `c.JSON`: an error object or the response struct. -/
inductive Body where
  | error (msg : String)
  | response (r : TransactionResponse)
deriving DecidableEq, Repr

/-- What the handler writes with `c.JSON(status, body)`. -/
structure HttpResponse where
  status : Nat
  body : Body
deriving DecidableEq, Repr

/-- Function `toBlockAccessList`. -/
def toBlockAccessList (env : Env) (apiList : Slice AccessTuple) : Block.AccessList :=
  if apiList.len = 0 then
    some []
  else
    some (fillByIndex (Block.AccessTuple.mk common.Address.zero [])
      (fun tuple =>
        let storageKeys := fillByIndex common.Hash.zero env.hexToHash tuple.StorageKeys
        { Address := env.hexToAddress tuple.Address, StorageKeys := storageKeys })
      apiList.elems)

/-- Function `toTransactionData`. -/
def toTransactionData (env : Env) (tx : Block.Transaction) : TransactionData :=
  let result : TransactionData := {
    ChainID := bigString tx.ChainID
    Nonce := tx.Nonce
    Value := bigString tx.Value
    Data := tx.Data
    GasLimit := tx.GasLimit
    V := bigString tx.V
    R := bigString tx.R
    S := bigString tx.S }
  let result :=
    match tx.To with
    | some a => { result with To := env.addressHex a }
    | none => result
  let result :=
    if tx.MaxFeePerGas ≠ none then
      { result with
        Typ := "EIP-1559"
        MaxFeePerGas := bigString tx.MaxFeePerGas
        MaxPriorityFeePerGas := bigString tx.MaxPriorityFeePerGas }
    else
      let result := { result with Typ := "Legacy" }
      if tx.GasPrice ≠ none then { result with GasPrice := bigString tx.GasPrice } else result
  if tx.AccessList ≠ none ∧ tx.AccessList.len > 0 then
    { result with
      AccessList := some (fillByIndex (AccessTuple.mk "" [])
        (fun tuple =>
          let keys := fillByIndex "" env.hashHex tuple.StorageKeys
          { Address := env.addressHex tuple.Address, StorageKeys := keys })
        tx.AccessList.elems) }
  else
    result

/-- Validation tag `binding:"required"`: the member must differ from the zero
value of its type. The tag is on `txn_type`, `txn`, `recipient_address`,
`amount`, `nonce`, `gas_limit`, `gas_price` and `chain_id`. -/
def requiredOk (req : TxnsType) : Bool :=
  decide (req.TxnType ≠ "") && decide (req.Txn.RecipientAddress ≠ "") &&
  decide (req.Txn.Amount ≠ "") && decide (req.Txn.Nonce ≠ 0) &&
  decide (req.Txn.GasLimit ≠ 0) && decide (req.Txn.GasPrice ≠ "") &&
  decide (req.Txn.ChainID ≠ 0)

/-- Call `c.ShouldBindJSON(&req)`: `none` is a body that does not decode into
`TxnsType`; a decoded body must pass the `required` validation. -/
def ShouldBindJSON (body : Option TxnsType) : Except String TxnsType :=
  match body with
  | none => .error "invalid request body"
  | some req => if requiredOk req then .ok req else .error "required field missing"

/-- The handler after `GenerateLegacyTransaction` returned: an error gives status
500, a transaction is hashed and placed in `legacy_tx`. -/
def legacyOutcome (env : Env) (r : Except String Block.Transaction × List Event) :
    HttpResponse × List Event :=
  match r with
  | (.error err, tr) => (⟨500, .error ("legacy transaction error: " ++ err)⟩, tr)
  | (.ok legacyTx, tr) =>
    let legacyTxHash := env.hashHex (Block.Hash env legacyTx)
    let response : TransactionResponse := {
      LegacyTx := some {
        Transaction := toTransactionData env legacyTx
        TransactionHash := legacyTxHash } }
    (⟨200, .response response⟩, tr)

/-- The handler after `GenerateEIP1559Transaction` returned: an error gives status
500, a transaction is hashed and placed in `eip1559_tx`. -/
def eip1559Outcome (env : Env) (r : Except String Block.Transaction × List Event) :
    HttpResponse × List Event :=
  match r with
  | (.error err, tr) => (⟨500, .error ("EIP-1559 transaction error: " ++ err)⟩, tr)
  | (.ok eip1559Tx, tr) =>
    let eip1559TxHash := env.hashHex (Block.Hash env eip1559Tx)
    let response : TransactionResponse := {
      EIP1559Tx := some {
        Transaction := toTransactionData env eip1559Tx
        TransactionHash := eip1559TxHash } }
    (⟨200, .response response⟩, tr)

/-- Function `generateTransactions`: the response written and the calls made. -/
def generateTransactions (env : Env) (body : Option TxnsType) : HttpResponse × List Event :=
  match ShouldBindJSON body with
  | .error err => (⟨400, .error err⟩, [])
  | .ok req =>
    match bigSetString10 req.Txn.Amount with
    | none => (⟨400, .error "invalid amount"⟩, [])
    | some amount =>
      match bigSetString10 req.Txn.GasPrice with
      | none => (⟨400, .error "invalid gas price"⟩, [])
      | some gasPrice =>
        let accountPath := "Account.json"
        let chainID : Option Int := some req.Txn.ChainID
        let data := req.Txn.Data
        if req.TxnType = "legacy" then
          legacyOutcome env
            (Block.GenerateLegacyTransaction env accountPath chainID
              req.Txn.RecipientAddress (some amount) req.Txn.Nonce req.Txn.GasLimit
              (some gasPrice) data)
        else if req.Txn.MaxFee ≠ "" ∧ req.Txn.MaxPriorityFee ≠ "" then
          match bigSetString10 req.Txn.MaxFee with
          | none => (⟨400, .error "invalid max fee"⟩, [])
          | some maxFee =>
            match bigSetString10 req.Txn.MaxPriorityFee with
            | none => (⟨400, .error "invalid max priority fee"⟩, [])
            | some maxPriorityFee =>
              let accessList := toBlockAccessList env req.Txn.AccessList
              eip1559Outcome env
                (Block.GenerateEIP1559Transaction env accountPath chainID
                  req.Txn.RecipientAddress (some amount) req.Txn.Nonce req.Txn.GasLimit
                  (some maxFee) (some maxPriorityFee) data accessList)
        else
          (⟨200, .response {}⟩, [])

end Main

/-! ## A concrete environment -/

/-- Value of a hexadecimal digit, as in the table of `encoding/hex`. -/
def hexVal (c : Char) : Option Nat :=
  if '0' ≤ c ∧ c ≤ '9' then some (c.toNat - '0'.toNat)
  else if 'a' ≤ c ∧ c ≤ 'f' then some (c.toNat - 'a'.toNat + 10)
  else if 'A' ≤ c ∧ c ≤ 'F' then some (c.toNat - 'A'.toNat + 10)
  else none

/-- Bytes decoded by `common.Hex2Bytes`: pairs of digits up to the first invalid one. -/
def hexDecode : List Char → List Nat
  | a :: b :: rest =>
    match hexVal a, hexVal b with
    | some x, some y => (x * 16 + y) :: hexDecode rest
    | _, _ => []
  | _ => []

/-- Bytes decoded by `common.FromHex` on ASCII text: an optional `0x` is dropped
and an odd number of digits is padded with a leading zero digit. -/
def sampleFromHex (s : String) : List Nat :=
  let cs := s.toList
  let cs := match cs with
    | '0' :: 'x' :: rest => rest
    | '0' :: 'X' :: rest => rest
    | _ => cs
  let cs := if cs.length % 2 = 1 then '0' :: cs else cs
  hexDecode cs

/-- Method `SetBytes` of a fixed-size array of `n` bytes: keep the last `n`
bytes, pad on the left with zeros. -/
def sampleSetBytes (n : Nat) (b : List Nat) : List Nat :=
  let b := if b.length > n then b.drop (b.length - n) else b
  List.replicate (n - b.length) 0 ++ b

/-- Environment in which every external call succeeds, used to evaluate the
definitions on concrete inputs. The decoders follow go-ethereum on ASCII text;
the key, the signature, the hash and the hexadecimal printers are stand-ins. -/
def sampleEnv : Env where
  readFile := fun _ => .ok []
  unmarshalAccount := fun _ => .ok { Mnemonic := "abandon" }
  newFromMnemonic := fun _ => .ok ⟨[]⟩
  derive := fun _ => .ok ⟨common.Address.zero⟩
  privateKey := fun _ _ => .ok ⟨1⟩
  signTx := fun _ _ _ => .ok ⟨1, 2, 3⟩
  hexToAddress := fun s => ⟨sampleSetBytes 20 (sampleFromHex s)⟩
  hexToHash := fun s => ⟨sampleSetBytes 32 (sampleFromHex s)⟩
  addressHex := fun _ => "0x"
  hashHex := fun _ => "0x"
  txHash := fun _ => common.Hash.zero

/-- Environment in which the signing call fails. -/
def failingSignEnv : Env :=
  { sampleEnv with signTx := fun _ _ _ => .error "invalid key" }

/-- Environment whose signer refuses a chain id that is zero or negative, as
`types.LatestSignerForChainID` does from go-ethereum 1.15 on; with a nil chain id
the library falls back to the Homestead signer, which signs legacy payloads
only. The library refuses by a panic; `Env.signTx` has no such outcome, so the
refusal appears as an error result: no signature is produced. -/
def strictEnv : Env :=
  { sampleEnv with
    signTx := fun payload chainID _ =>
      match chainID, payload with
      | some n, _ => if 0 < n then .ok ⟨1, 2, 3⟩ else .error "invalid chainID"
      | none, .legacy _ => .ok ⟨1, 2, 3⟩
      | none, _ => .error "transaction type not supported" }

/-- A fee-market transaction that also carries a stray gas price. -/
def sampleFeeTx : Block.Transaction :=
  { ChainID := some 1, Nonce := 0, To := some common.Address.zero, Value := some 0,
    GasLimit := 21000, GasPrice := some 5, MaxPriorityFeePerGas := some 3,
    MaxFeePerGas := some 7 }

/-- A gas-price transaction with one access tuple. -/
def sampleAccessTx : Block.Transaction :=
  { ChainID := some 1, Nonce := 0, To := some common.Address.zero, Value := some 0,
    GasLimit := 21000, GasPrice := some 5,
    AccessList := some [⟨common.Address.zero, [common.Hash.zero]⟩] }

/-- A gas-price transaction with an empty, non-nil access list. -/
def sampleLegacyTx : Block.Transaction :=
  { ChainID := some 1, Nonce := 0, To := some common.Address.zero, Value := some 0,
    GasLimit := 21000, GasPrice := some 5, AccessList := some [] }

/-- The transaction `GenerateLegacyTransaction` returns in `sampleEnv` for
recipient `0x01`, value 0, gas price 5 on chain 1. -/
def sampleBuiltLegacy : Block.Transaction :=
  { ChainID := some 1, Nonce := 0, To := some (sampleEnv.hexToAddress "0x01"), Value := some 0,
    GasLimit := 21000, GasPrice := some 5, V := some 1, R := some 2, S := some 3 }

/-- The transaction `GenerateEIP2930Transaction` returns in `sampleEnv`. -/
def sampleBuiltAccess : Block.Transaction :=
  { sampleBuiltLegacy with AccessList := some [⟨common.Address.zero, [common.Hash.zero]⟩] }

/-- The transaction `GenerateEIP1559Transaction` returns in `sampleEnv`. -/
def sampleBuiltFee : Block.Transaction :=
  { sampleBuiltAccess with GasPrice := none, MaxFeePerGas := some 7,
                           MaxPriorityFeePerGas := some 3 }

/-- A well-formed legacy request. -/
def sampleLegacyReq : Main.TxnsType :=
  { TxnType := "legacy",
    Txn := { RecipientAddress := "0x01", Amount := "0", Nonce := 1, GasLimit := 21000,
             GasPrice := "1000000000", ChainID := 1 } }

/-- A fee-market request whose access list repeats a storage key and a tuple. -/
def sampleFeeReq : Main.TxnsType :=
  { TxnType := "eip1559",
    Txn := { sampleLegacyReq.Txn with
             MaxFee := "7", MaxPriorityFee := "3",
             AccessList := some [⟨"0x02", ["0x04", "0x03", "0x04"]⟩, ⟨"0x02", []⟩,
                                 ⟨"0x02", []⟩] } }

/-- A request that is not legacy and names no fee cap. -/
def sampleNoFeeReq : Main.TxnsType :=
  { sampleFeeReq with Txn := { sampleFeeReq.Txn with MaxFee := "" } }

/-- A legacy request whose amount is not a number. -/
def sampleBadAmountReq : Main.TxnsType :=
  { sampleLegacyReq with Txn := { sampleLegacyReq.Txn with Amount := "12a" } }

/-- A legacy request whose amount is negative. -/
def sampleNegAmountReq : Main.TxnsType :=
  { sampleLegacyReq with Txn := { sampleLegacyReq.Txn with Amount := "-5" } }

/-- A legacy request that carries an access list and both fee-market members. -/
def sampleLegacyListReq : Main.TxnsType :=
  { sampleFeeReq with TxnType := "legacy" }

/-- A legacy request whose chain id is negative. -/
def sampleNegChainReq : Main.TxnsType :=
  { sampleLegacyReq with Txn := { sampleLegacyReq.Txn with ChainID := -1 } }

/-- Decimal digit test of `nat.scan`. -/
def isDecDigit (c : Char) : Bool := decide ('0' ≤ c ∧ c ≤ '9')

/-- Text that is a base-10 integer: one optional sign, then one or more decimal
digits and nothing else. -/
def isSignedDecimal (s : String) : Bool :=
  match s.toList with
  | [] => false
  | c :: cs =>
    let ds := if c = '-' ∨ c = '+' then cs else c :: cs
    !ds.isEmpty && ds.all isDecDigit

/-- The signed transaction `sampleEnv` returns for `sampleLegacyReq`. -/
def sampleLegacyReqTx : Block.Transaction :=
  { ChainID := some 1, Nonce := 1, To := some (sampleEnv.hexToAddress "0x01"), Value := some 0,
    GasLimit := 21000, GasPrice := some 1000000000, V := some 1, R := some 2, S := some 3 }

/-- The signed transaction `sampleEnv` returns for `sampleFeeReq`. -/
def sampleFeeReqTx : Block.Transaction :=
  { ChainID := some 1, Nonce := 1, To := some (sampleEnv.hexToAddress "0x01"), Value := some 0,
    GasLimit := 21000, MaxFeePerGas := some 7, MaxPriorityFeePerGas := some 3,
    AccessList := Main.toBlockAccessList sampleEnv sampleFeeReq.Txn.AccessList,
    V := some 1, R := some 2, S := some 3 }

/-- The legacy payload signed in `sampleEnv` for `sampleLegacyReq` with the given
value. -/
def sampleLegacyPayload (value : Int) : types.TxData :=
  .legacy { Nonce := 1, GasPrice := some 1000000000, Gas := 21000,
            To := some (sampleEnv.hexToAddress "0x01"), Value := some value }

/-! ## Loops -/

theorem fillByIndex_aux {α β : Type} (f : α → β) (xs : List α) :
    ∀ (done rest : List β), rest.length = xs.length →
      (xs.enumFrom done.length).foldl (fun result p => result.set p.1 (f p.2)) (done ++ rest)
        = done ++ xs.map f := by
  induction xs with
  | nil =>
    intro done rest h
    cases rest with
    | nil => simp
    | cons r rs => simp at h
  | cons x xs ih =>
    intro done rest h
    cases rest with
    | nil => simp at h
    | cons r rs =>
      simp only [List.length_cons, Nat.add_right_cancel_iff] at h
      have hset : (done ++ r :: rs).set done.length (f x) = (done ++ [f x]) ++ rs := by
        simp
      have hlen : (done ++ [f x]).length = done.length + 1 := by simp
      simp only [List.enumFrom_cons, List.foldl_cons, hset]
      rw [← hlen, ih (done ++ [f x]) rs h]
      simp

/-- The allocate-then-assign loop computes the pointwise image, in order. -/
theorem fillByIndex_eq_map {α β : Type} (zero : β) (f : α → β) (xs : List α) :
    fillByIndex zero f xs = xs.map f := by
  have h := fillByIndex_aux f xs [] (List.replicate xs.length zero) (by simp)
  simpa [fillByIndex, List.enum] using h

/-! ## Parsing decimal text -/

theorem scanDigits_spec (cs : List Char) :
    ∀ acc count, (scanDigits cs acc count).2.1 = count + (cs.takeWhile isDecDigit).length ∧
      (scanDigits cs acc count).2.2 = cs.dropWhile isDecDigit := by
  induction cs with
  | nil => intro acc count; simp [scanDigits]
  | cons c cs ih =>
    intro acc count
    by_cases h : '0' ≤ c ∧ c ≤ '9'
    · have hd : isDecDigit c = true := by simp [isDecDigit, h]
      simp only [scanDigits, h, and_self, if_true, List.takeWhile_cons, hd, List.dropWhile_cons,
        List.length_cons]
      obtain ⟨h1, h2⟩ := ih (acc * 10 + (c.toNat - '0'.toNat)) (count + 1)
      exact ⟨by rw [h1]; omega, h2⟩
    · have hd : isDecDigit c = false := by simp [isDecDigit, h]
      simp [scanDigits, h, List.takeWhile_cons, hd, List.dropWhile_cons]

theorem scanDigits_accepts (ds : List Char) :
    ((scanDigits ds 0 0).2.1 = 0 ∨ (scanDigits ds 0 0).2.2 ≠ []) ↔
      (!ds.isEmpty && ds.all isDecDigit) = false := by
  obtain ⟨h1, h2⟩ := scanDigits_spec ds 0 0
  rw [h1, h2]
  cases ds with
  | nil => simp
  | cons d ds =>
    by_cases hd : isDecDigit d = true
    · simp [List.takeWhile_cons, List.dropWhile_cons, hd]
    · simp [List.takeWhile_cons, List.dropWhile_cons, hd]

theorem bigSetString10_of_digits (neg : Bool) (ds : List Char) :
    (match scanDigits ds 0 0 with
      | (abs, count, rest) =>
        if count = 0 then (none : Option Int)
        else if rest ≠ [] then none
        else some (if abs ≠ 0 ∧ neg = true then -(abs : Int) else (abs : Int))) = none ↔
      (!ds.isEmpty && ds.all isDecDigit) = false := by
  rw [← scanDigits_accepts]
  rcases hs : scanDigits ds 0 0 with ⟨abs, count, rest⟩
  simp only
  by_cases hc : count = 0
  · simp [hc]
  · by_cases hr : rest = []
    · simp [hc, hr]
    · simp [hc, hr]

/-- Method `SetString(s, 10)` fails exactly on the texts that are not a signed
decimal integer. -/
theorem bigSetString10_eq_none_iff (s : String) :
    bigSetString10 s = none ↔ isSignedDecimal s = false := by
  unfold bigSetString10 isSignedDecimal
  cases hl : s.toList with
  | nil => simp [scanSign]
  | cons c cs =>
    by_cases h1 : c = '-'
    · have hsign : scanSign (c :: cs) = some (true, cs) := by simp [scanSign, h1]
      have hds : (if c = '-' ∨ c = '+' then cs else c :: cs) = cs := by simp [h1]
      rw [hsign]
      simpa only [hds] using bigSetString10_of_digits true cs
    · by_cases h2 : c = '+'
      · have hsign : scanSign (c :: cs) = some (false, cs) := by simp [scanSign, h1, h2]
        have hds : (if c = '-' ∨ c = '+' then cs else c :: cs) = cs := by simp [h2]
        rw [hsign]
        simpa only [hds] using bigSetString10_of_digits false cs
      · have hsign : scanSign (c :: cs) = some (false, c :: cs) := by simp [scanSign, h1, h2]
        have hds : (if c = '-' ∨ c = '+' then cs else c :: cs) = c :: cs := by simp [h1, h2]
        rw [hsign]
        simpa only [hds] using bigSetString10_of_digits false (c :: cs)

/-! ## Signing and the builders -/

namespace Block

theorem signTransaction_of_ok {env : Env} {tx : Transaction} {key : PrivateKey}
    {chainID : Option Int} {sig : types.Signature}
    (h : env.signTx (buildEthTx tx chainID) chainID key = .ok sig) :
    signTransaction env tx key chainID =
      { ret := .ok { tx with V := some sig.v, R := some sig.r, S := some sig.s },
        mem := { tx with V := some sig.v, R := some sig.r, S := some sig.s },
        trace := [.signTx (buildEthTx tx chainID) chainID key] } := by
  unfold signTransaction
  simp only [h]

theorem signTransaction_of_error {env : Env} {tx : Transaction} {key : PrivateKey}
    {chainID : Option Int} {err : String}
    (h : env.signTx (buildEthTx tx chainID) chainID key = .error err) :
    signTransaction env tx key chainID =
      { ret := .error ("failed to sign transaction: " ++ err), mem := tx,
        trace := [.signTx (buildEthTx tx chainID) chainID key] } := by
  unfold signTransaction
  simp only [h]

theorem signTransaction_ok_inv {env : Env} {tx tx1 : Transaction} {key : PrivateKey}
    {chainID : Option Int} (h : (signTransaction env tx key chainID).ret = .ok tx1) :
    ∃ sig, env.signTx (buildEthTx tx chainID) chainID key = .ok sig ∧
      tx1 = { tx with V := some sig.v, R := some sig.r, S := some sig.s } := by
  cases hs : env.signTx (buildEthTx tx chainID) chainID key with
  | error err =>
    rw [signTransaction_of_error hs] at h
    cases h
  | ok sig =>
    rw [signTransaction_of_ok hs] at h
    exact ⟨sig, rfl, (Except.ok.inj h).symm⟩

theorem signTransaction_trace (env : Env) (tx : Transaction) (key : PrivateKey)
    (chainID : Option Int) :
    (signTransaction env tx key chainID).trace
      = [.signTx (buildEthTx tx chainID) chainID key] := by
  cases hs : env.signTx (buildEthTx tx chainID) chainID key with
  | error err => rw [signTransaction_of_error hs]
  | ok sig => rw [signTransaction_of_ok hs]

/-- The prologue reads the credential file once and does nothing else observable. -/
theorem loadKey_trace (env : Env) (accountPath : String) :
    (loadKey env accountPath).2 = [.readFile accountPath] := by
  unfold loadKey LoadAccountInfo
  cases env.readFile accountPath with
  | error e => rfl
  | ok d =>
    simp only
    cases env.unmarshalAccount d with
    | error e => rfl
    | ok a =>
      simp only
      cases GetPrivateKeyFromMnemonic env a.Mnemonic with
      | error e => rfl
      | ok p => rfl

/-- A builder that returned a transaction loaded a key and signed its literal. -/
theorem builder_ok_inv {env : Env} {accountPath : String} {chainID : Option Int}
    {tx tx1 : Transaction}
    (h : (match loadKey env accountPath with
          | (.error err, tr) => ((.error err : Except String Transaction), tr)
          | (.ok privateKey, tr) =>
            ((signTransaction env tx privateKey chainID).ret,
              tr ++ (signTransaction env tx privateKey chainID).trace)).1 = .ok tx1) :
    ∃ key sig, (loadKey env accountPath).1 = .ok key ∧
      env.signTx (buildEthTx tx chainID) chainID key = .ok sig ∧
      tx1 = { tx with V := some sig.v, R := some sig.r, S := some sig.s } := by
  rcases hk : loadKey env accountPath with ⟨r, tr⟩
  rw [hk] at h
  cases r with
  | error err => cases h
  | ok key =>
    obtain ⟨sig, hs, htx⟩ := signTransaction_ok_inv h
    exact ⟨key, sig, rfl, hs, htx⟩

/-- Calls made by a builder: the file read, then one signing call if a key was loaded. -/
theorem builder_trace {env : Env} {accountPath : String} {chainID : Option Int}
    {tx : Transaction} :
    (match loadKey env accountPath with
          | (.error err, tr) => ((.error err : Except String Transaction), tr)
          | (.ok privateKey, tr) =>
            ((signTransaction env tx privateKey chainID).ret,
              tr ++ (signTransaction env tx privateKey chainID).trace)).2
      = match (loadKey env accountPath).1 with
        | .error _ => [.readFile accountPath]
        | .ok key => [.readFile accountPath, .signTx (buildEthTx tx chainID) chainID key] := by
  have ht := loadKey_trace env accountPath
  rcases hk : loadKey env accountPath with ⟨r, tr⟩
  rw [hk] at ht
  simp only at ht
  subst ht
  cases r with
  | error err => rfl
  | ok key => simp only [signTransaction_trace]; rfl

end Block

/-! ## The handler -/

namespace Main

theorem bigSetString10_empty : bigSetString10 "" = none := by decide

theorem ShouldBindJSON_ok {req : TxnsType} (hbind : requiredOk req = true) :
    ShouldBindJSON (some req) = .ok req := by
  simp [ShouldBindJSON, hbind]

theorem generateTransactions_legacy {env : Env} {req : TxnsType} {amount gasPrice : Int}
    (hbind : requiredOk req = true) (ha : bigSetString10 req.Txn.Amount = some amount)
    (hg : bigSetString10 req.Txn.GasPrice = some gasPrice) (ht : req.TxnType = "legacy") :
    generateTransactions env (some req) =
      legacyOutcome env (Block.GenerateLegacyTransaction env "Account.json"
        (some req.Txn.ChainID) req.Txn.RecipientAddress (some amount) req.Txn.Nonce
        req.Txn.GasLimit (some gasPrice) req.Txn.Data) := by
  simp only [generateTransactions, ShouldBindJSON_ok hbind, ha, hg, ht, if_true]

theorem generateTransactions_eip1559 {env : Env} {req : TxnsType}
    {amount gasPrice maxFee maxPriorityFee : Int}
    (hbind : requiredOk req = true) (ha : bigSetString10 req.Txn.Amount = some amount)
    (hg : bigSetString10 req.Txn.GasPrice = some gasPrice) (ht : req.TxnType ≠ "legacy")
    (hmf : bigSetString10 req.Txn.MaxFee = some maxFee)
    (hmp : bigSetString10 req.Txn.MaxPriorityFee = some maxPriorityFee) :
    generateTransactions env (some req) =
      eip1559Outcome env (Block.GenerateEIP1559Transaction env "Account.json"
        (some req.Txn.ChainID) req.Txn.RecipientAddress (some amount) req.Txn.Nonce
        req.Txn.GasLimit (some maxFee) (some maxPriorityFee) req.Txn.Data
        (toBlockAccessList env req.Txn.AccessList)) := by
  have h1 : req.Txn.MaxFee ≠ "" := by
    intro h; rw [h, bigSetString10_empty] at hmf; cases hmf
  have h2 : req.Txn.MaxPriorityFee ≠ "" := by
    intro h; rw [h, bigSetString10_empty] at hmp; cases hmp
  simp only [generateTransactions, ShouldBindJSON_ok hbind, ha, hg, ht, hmf, hmp, h1, h2,
    if_true, if_false, ne_eq, not_false_eq_true, and_self]

theorem generateTransactions_empty {env : Env} {req : TxnsType} {amount gasPrice : Int}
    (hbind : requiredOk req = true) (ha : bigSetString10 req.Txn.Amount = some amount)
    (hg : bigSetString10 req.Txn.GasPrice = some gasPrice) (ht : req.TxnType ≠ "legacy")
    (he : req.Txn.MaxFee = "" ∨ req.Txn.MaxPriorityFee = "") :
    generateTransactions env (some req) = (⟨200, .response {}⟩, []) := by
  have h : ¬ (req.Txn.MaxFee ≠ "" ∧ req.Txn.MaxPriorityFee ≠ "") := by
    rintro ⟨h1, h2⟩
    rcases he with he | he
    · exact h1 he
    · exact h2 he
  simp only [generateTransactions, ShouldBindJSON_ok hbind, ha, hg, ht, h, if_true, if_false]

/-- Every run of the handler either stops before any builder is called, or is the
legacy branch, or is the fee-market branch. -/
theorem generateTransactions_cases (env : Env) (req : TxnsType) :
    ((∃ msg, generateTransactions env (some req) = (⟨400, .error msg⟩, [])) ∨
      generateTransactions env (some req) = (⟨200, .response {}⟩, [])) ∨
    (requiredOk req = true ∧ req.TxnType = "legacy" ∧ ∃ amount gasPrice : Int,
      bigSetString10 req.Txn.Amount = some amount ∧
      bigSetString10 req.Txn.GasPrice = some gasPrice ∧
      generateTransactions env (some req) =
        legacyOutcome env (Block.GenerateLegacyTransaction env "Account.json"
          (some req.Txn.ChainID) req.Txn.RecipientAddress (some amount) req.Txn.Nonce
          req.Txn.GasLimit (some gasPrice) req.Txn.Data)) ∨
    (requiredOk req = true ∧ req.TxnType ≠ "legacy" ∧
      ∃ amount gasPrice maxFee maxPriorityFee : Int,
      bigSetString10 req.Txn.Amount = some amount ∧
      bigSetString10 req.Txn.GasPrice = some gasPrice ∧
      bigSetString10 req.Txn.MaxFee = some maxFee ∧
      bigSetString10 req.Txn.MaxPriorityFee = some maxPriorityFee ∧
      generateTransactions env (some req) =
        eip1559Outcome env (Block.GenerateEIP1559Transaction env "Account.json"
          (some req.Txn.ChainID) req.Txn.RecipientAddress (some amount) req.Txn.Nonce
          req.Txn.GasLimit (some maxFee) (some maxPriorityFee) req.Txn.Data
          (toBlockAccessList env req.Txn.AccessList))) := by
  by_cases hbind : requiredOk req = true
  · cases ha : bigSetString10 req.Txn.Amount with
    | none =>
      left; left
      exact ⟨_, by simp only [generateTransactions, ShouldBindJSON_ok hbind, ha]; rfl⟩
    | some amount =>
      cases hg : bigSetString10 req.Txn.GasPrice with
      | none =>
        left; left
        exact ⟨_, by simp only [generateTransactions, ShouldBindJSON_ok hbind, ha, hg]; rfl⟩
      | some gasPrice =>
        by_cases ht : req.TxnType = "legacy"
        · right; left
          exact ⟨hbind, ht, amount, gasPrice, rfl, rfl, generateTransactions_legacy hbind ha hg ht⟩
        · by_cases he : req.Txn.MaxFee = "" ∨ req.Txn.MaxPriorityFee = ""
          · left
            exact Or.inr (generateTransactions_empty hbind ha hg ht he)
          · have h1 : req.Txn.MaxFee ≠ "" := fun h => he (Or.inl h)
            have h2 : req.Txn.MaxPriorityFee ≠ "" := fun h => he (Or.inr h)
            cases hmf : bigSetString10 req.Txn.MaxFee with
            | none =>
              left; left
              exact ⟨_, by simp only [generateTransactions, ShouldBindJSON_ok hbind, ha, hg, ht,
                h1, h2, hmf, if_false, ne_eq, not_false_eq_true, and_self, if_true]; rfl⟩
            | some maxFee =>
              cases hmp : bigSetString10 req.Txn.MaxPriorityFee with
              | none =>
                left; left
                exact ⟨_, by simp only [generateTransactions, ShouldBindJSON_ok hbind, ha, hg, ht,
                  h1, h2, hmf, hmp, if_false, ne_eq, not_false_eq_true, and_self, if_true]; rfl⟩
              | some maxPriorityFee =>
                right; right
                exact ⟨hbind, ht, amount, gasPrice, maxFee, maxPriorityFee, rfl, rfl, rfl, rfl,
                  generateTransactions_eip1559 hbind ha hg ht hmf hmp⟩
  · left; left
    have hb : requiredOk req = false := by simpa using hbind
    exact ⟨_, by simp only [generateTransactions, ShouldBindJSON, hb]; rfl⟩

end Main

/-! ## Claims -/

/-- C1: `signTransaction` signs exactly the payload chosen by its switch, and the
switch follows the priority order: a non-nil `MaxFeePerGas` gives the fee-market
shape, whatever `GasPrice` holds; otherwise an access list with at least one
tuple gives the access-list shape; otherwise the shape is legacy. In particular
`GenerateEIP2930Transaction` with a nil or zero-length access list signs a
legacy payload whenever it gets as far as signing. -/
theorem C1_signTransaction_shape_priority (env : Env) (tx : Block.Transaction)
    (key : PrivateKey) (chainID : Option Int) :
    (Block.signTransaction env tx key chainID).trace
        = [.signTx (Block.buildEthTx tx chainID) chainID key] ∧
    (tx.MaxFeePerGas ≠ none →
      (Block.buildEthTx tx chainID).shape = .feeMarket ∧
      ∀ g, Block.buildEthTx { tx with GasPrice := g } chainID = Block.buildEthTx tx chainID) ∧
    (tx.MaxFeePerGas = none → 0 < tx.AccessList.len →
      (Block.buildEthTx tx chainID).shape = .accessList) ∧
    (tx.MaxFeePerGas = none → tx.AccessList.len = 0 →
      (Block.buildEthTx tx chainID).shape = .legacy) ∧
    (∀ (accountPath recipient : String) (amount : Option Int) (nonce gasLimit : Nat)
        (gasPrice : Option Int) (data : List Nat) (accessList : Block.AccessList),
      accessList.len = 0 →
      (∀ e ∈ (Block.GenerateEIP2930Transaction env accountPath chainID recipient amount nonce
            gasLimit gasPrice data accessList).2,
          e.signedShape = none ∨ e.signedShape = some .legacy) ∧
      (∀ k, (Block.loadKey env accountPath).1 = .ok k →
        ∃ t, Event.signTx (.legacy t) chainID k ∈
          (Block.GenerateEIP2930Transaction env accountPath chainID recipient amount nonce
            gasLimit gasPrice data accessList).2)) := by
  refine ⟨Block.signTransaction_trace env tx key chainID, ?_, ?_, ?_, ?_⟩
  · intro h
    simp [Block.buildEthTx, h, types.TxData.shape]
  · intro h hlen
    have hne : tx.AccessList ≠ none := by
      intro hn
      rw [hn] at hlen
      exact absurd hlen (by simp [Slice.len])
    simp [Block.buildEthTx, h, hne, hlen, types.TxData.shape]
  · intro h hlen
    simp [Block.buildEthTx, h, hlen, types.TxData.shape]
  · intro accountPath recipient amount nonce gasLimit gasPrice data accessList hlen
    have hshape : ∀ tx0 : Block.Transaction, tx0.MaxFeePerGas = none → tx0.AccessList = accessList →
        ∃ t, Block.buildEthTx tx0 chainID = .legacy t := by
      intro tx0 h1 h2
      simp [Block.buildEthTx, h1, h2, hlen]
    obtain ⟨t, ht⟩ := hshape ⟨chainID, nonce, some (env.hexToAddress recipient), amount, data,
      gasLimit, gasPrice, none, none, accessList, none, none, none⟩ rfl rfl
    have htr := @Block.builder_trace env accountPath chainID ⟨chainID, nonce,
      some (env.hexToAddress recipient), amount, data, gasLimit, gasPrice, none, none,
      accessList, none, none, none⟩
    rw [ht] at htr
    have htr2 : (Block.GenerateEIP2930Transaction env accountPath chainID recipient amount nonce
            gasLimit gasPrice data accessList).2 = match (Block.loadKey env accountPath).1 with
        | .error _ => [.readFile accountPath]
        | .ok key => [.readFile accountPath, .signTx (.legacy t) chainID key] := htr
    rw [htr2]
    constructor
    · intro e he
      cases hk : (Block.loadKey env accountPath).1 with
      | error err =>
        rw [hk] at he
        simp only [List.mem_singleton] at he
        subst he
        exact Or.inl rfl
      | ok k =>
        rw [hk] at he
        simp only [List.mem_cons, List.mem_singleton, List.not_mem_nil, or_false] at he
        rcases he with he | he
        · subst he; exact Or.inl rfl
        · subst he; exact Or.inr rfl
    · intro k hk
      rw [hk]
      exact ⟨t, by simp⟩

/-- C1 at concrete inputs: a fee cap with a stray gas price, one access tuple, and an
empty access list passed to the EIP-2930 builder. -/
theorem C1_signTransaction_shape_priority_witness :
    (Block.buildEthTx sampleFeeTx (some 1)).shape = .feeMarket ∧
    (Block.buildEthTx sampleAccessTx (some 1)).shape = .accessList ∧
    (Block.buildEthTx sampleLegacyTx (some 1)).shape = .legacy ∧
    (∃ t, Event.signTx (.legacy t) (some 1) ⟨1⟩ ∈
      (Block.GenerateEIP2930Transaction sampleEnv "Account.json" (some 1) "0x01" (some 0) 0
        21000 (some 5) [] (some [])).2) :=
  ⟨((C1_signTransaction_shape_priority sampleEnv sampleFeeTx ⟨1⟩ (some 1)).2.1
      (by decide)).1,
   (C1_signTransaction_shape_priority sampleEnv sampleAccessTx ⟨1⟩ (some 1)).2.2.1
      (by decide) (by decide),
   (C1_signTransaction_shape_priority sampleEnv sampleLegacyTx ⟨1⟩ (some 1)).2.2.2.1
      (by decide) (by decide),
   ((C1_signTransaction_shape_priority sampleEnv sampleLegacyTx ⟨1⟩ (some 1)).2.2.2.2
      "Account.json" "0x01" (some 0) 0 21000 (some 5) [] (some []) (by decide)).2 ⟨1⟩ rfl⟩

/-- C2: exactly one fee model is populated in a transaction returned by a builder.
When `GenerateLegacyTransaction` or `GenerateEIP2930Transaction` succeeds on a
non-nil gas price, the result has that `GasPrice` and nil `MaxFeePerGas` and
`MaxPriorityFeePerGas`; when `GenerateEIP1559Transaction` succeeds on non-nil
fee cap and tip cap, the result has both set to the given values and a nil
`GasPrice`. -/
theorem C2_builders_exactly_one_fee_model (env : Env) (accountPath : String)
    (chainID : Option Int) (recipient : String) (amount : Option Int) (nonce gasLimit : Nat)
    (data : List Nat) (accessList : Block.AccessList) :
    (∀ (gasPrice : Int) (tx : Block.Transaction),
      (Block.GenerateLegacyTransaction env accountPath chainID recipient amount nonce gasLimit
        (some gasPrice) data).1 = .ok tx →
      tx.GasPrice = some gasPrice ∧ tx.MaxFeePerGas = none ∧ tx.MaxPriorityFeePerGas = none) ∧
    (∀ (gasPrice : Int) (tx : Block.Transaction),
      (Block.GenerateEIP2930Transaction env accountPath chainID recipient amount nonce gasLimit
        (some gasPrice) data accessList).1 = .ok tx →
      tx.GasPrice = some gasPrice ∧ tx.MaxFeePerGas = none ∧ tx.MaxPriorityFeePerGas = none) ∧
    (∀ (maxFeePerGas maxPriorityFeePerGas : Int) (tx : Block.Transaction),
      (Block.GenerateEIP1559Transaction env accountPath chainID recipient amount nonce gasLimit
        (some maxFeePerGas) (some maxPriorityFeePerGas) data accessList).1 = .ok tx →
      tx.MaxFeePerGas = some maxFeePerGas ∧
      tx.MaxPriorityFeePerGas = some maxPriorityFeePerGas ∧ tx.GasPrice = none) := by
  refine ⟨?_, ?_, ?_⟩
  · intro gasPrice tx h
    obtain ⟨key, sig, _, _, rfl⟩ := Block.builder_ok_inv h
    exact ⟨rfl, rfl, rfl⟩
  · intro gasPrice tx h
    obtain ⟨key, sig, _, _, rfl⟩ := Block.builder_ok_inv h
    exact ⟨rfl, rfl, rfl⟩
  · intro maxFeePerGas maxPriorityFeePerGas tx h
    obtain ⟨key, sig, _, _, rfl⟩ := Block.builder_ok_inv h
    exact ⟨rfl, rfl, rfl⟩

/-- C2 at concrete inputs: the three builders succeed in `sampleEnv`. -/
theorem C2_builders_exactly_one_fee_model_witness :
    (sampleBuiltLegacy.GasPrice = some 5 ∧ sampleBuiltLegacy.MaxFeePerGas = none ∧
      sampleBuiltLegacy.MaxPriorityFeePerGas = none) ∧
    (sampleBuiltAccess.GasPrice = some 5 ∧ sampleBuiltAccess.MaxFeePerGas = none ∧
      sampleBuiltAccess.MaxPriorityFeePerGas = none) ∧
    (sampleBuiltFee.MaxFeePerGas = some 7 ∧ sampleBuiltFee.MaxPriorityFeePerGas = some 3 ∧
      sampleBuiltFee.GasPrice = none) :=
  have h := C2_builders_exactly_one_fee_model sampleEnv "Account.json" (some 1) "0x01" (some 0)
    0 21000 [] (some [⟨common.Address.zero, [common.Hash.zero]⟩])
  ⟨h.1 5 sampleBuiltLegacy rfl, h.2.1 5 sampleBuiltAccess rfl, h.2.2 7 3 sampleBuiltFee rfl⟩

/-- C3: a successful `signTransaction` returns the transaction it was given, now
holding non-nil `V`, `R`, `S` and otherwise unchanged, so its dispatch shape is
that of the input; a failed one returns an error and leaves the transaction,
`V`, `R`, `S` included, as it was. -/
theorem C3_signTransaction_frame (env : Env) (tx : Block.Transaction) (key : PrivateKey)
    (chainID : Option Int) :
    (∀ tx1, (Block.signTransaction env tx key chainID).ret = .ok tx1 →
      (Block.signTransaction env tx key chainID).mem = tx1 ∧
      tx1.V ≠ none ∧ tx1.R ≠ none ∧ tx1.S ≠ none ∧
      tx1.ChainID = tx.ChainID ∧ tx1.Nonce = tx.Nonce ∧ tx1.To = tx.To ∧
      tx1.Value = tx.Value ∧ tx1.Data = tx.Data ∧ tx1.GasLimit = tx.GasLimit ∧
      tx1.GasPrice = tx.GasPrice ∧ tx1.MaxPriorityFeePerGas = tx.MaxPriorityFeePerGas ∧
      tx1.MaxFeePerGas = tx.MaxFeePerGas ∧ tx1.AccessList = tx.AccessList ∧
      ∀ c, (Block.buildEthTx tx1 c).shape = (Block.buildEthTx tx c).shape) ∧
    (∀ err, (Block.signTransaction env tx key chainID).ret = .error err →
      (Block.signTransaction env tx key chainID).mem = tx) ∧
    ((∃ tx1, (Block.signTransaction env tx key chainID).ret = .ok tx1) ∨
      (∃ err, (Block.signTransaction env tx key chainID).ret = .error err)) := by
  cases hs : env.signTx (Block.buildEthTx tx chainID) chainID key with
  | error err =>
    rw [Block.signTransaction_of_error hs]
    refine ⟨?_, ?_, Or.inr ⟨_, rfl⟩⟩
    · intro tx1 h
      cases h
    · intro e _
      rfl
  | ok sig =>
    rw [Block.signTransaction_of_ok hs]
    refine ⟨?_, ?_, Or.inl ⟨_, rfl⟩⟩
    · intro tx1 h
      have h1 := Except.ok.inj h
      subst h1
      refine ⟨rfl, by simp, by simp, by simp, rfl, rfl, rfl, rfl, rfl, rfl, rfl, rfl, rfl, rfl, ?_⟩
      intro c
      rfl
    · intro e h
      cases h

/-- C3 at concrete inputs: signing succeeds in `sampleEnv` and fails in
`failingSignEnv`, where an earlier signature is left in place. -/
theorem C3_signTransaction_frame_witness :
    ((Block.signTransaction sampleEnv sampleLegacyTx ⟨1⟩ (some 1)).mem
        = { sampleLegacyTx with V := some 1, R := some 2, S := some 3 } ∧
      ({ sampleLegacyTx with V := some 1, R := some 2, S := some 3 } : Block.Transaction).V
        ≠ none) ∧
    (Block.signTransaction failingSignEnv sampleBuiltLegacy ⟨1⟩ (some 1)).mem
        = sampleBuiltLegacy :=
  ⟨⟨((C3_signTransaction_frame sampleEnv sampleLegacyTx ⟨1⟩ (some 1)).1
      { sampleLegacyTx with V := some 1, R := some 2, S := some 3 } rfl).1,
    ((C3_signTransaction_frame sampleEnv sampleLegacyTx ⟨1⟩ (some 1)).1
      { sampleLegacyTx with V := some 1, R := some 2, S := some 3 } rfl).2.1⟩,
   (C3_signTransaction_frame failingSignEnv sampleBuiltLegacy ⟨1⟩ (some 1)).2.1
      "failed to sign transaction: invalid key" rfl⟩

open Main


/-- Fee members written by `toTransactionData` for a fee-market transaction. -/
theorem toTransactionData_fee (env : Env) (tx : Block.Transaction)
    (h : tx.MaxFeePerGas ≠ none) :
    (toTransactionData env tx).MaxFeePerGas = bigString tx.MaxFeePerGas ∧
    (toTransactionData env tx).MaxPriorityFeePerGas = bigString tx.MaxPriorityFeePerGas ∧
    (toTransactionData env tx).Typ = "EIP-1559" := by
  unfold toTransactionData
  simp only [h, ne_eq, not_false_eq_true, if_true]
  by_cases hal : ¬tx.AccessList = none ∧ tx.AccessList.len > 0
  · rw [if_pos hal]
    cases tx.To <;> exact ⟨rfl, rfl, rfl⟩
  · rw [if_neg hal]
    cases tx.To <;> exact ⟨rfl, rfl, rfl⟩

/-- C4: for a request that binds and whose amount and gas price parse, when the
builder called succeeds, `txn_type` equal to `legacy` gives status 200 with
`legacy_tx` populated and `eip1559_tx` omitted; any other `txn_type` with
`max_fee` and `max_priority_fee` both parsing gives status 200 with `eip1559_tx`
populated by a transaction whose `MaxFeePerGas` and `MaxPriorityFeePerGas` are
the parsed values, and `legacy_tx` omitted. -/
theorem C4_generateTransactions_dispatch (env : Env) (req : TxnsType) (amount gasPrice : Int)
    (hbind : requiredOk req = true) (ha : bigSetString10 req.Txn.Amount = some amount)
    (hg : bigSetString10 req.Txn.GasPrice = some gasPrice) :
    (req.TxnType = "legacy" →
      ∀ tx, (Block.GenerateLegacyTransaction env "Account.json" (some req.Txn.ChainID)
          req.Txn.RecipientAddress (some amount) req.Txn.Nonce req.Txn.GasLimit
          (some gasPrice) req.Txn.Data).1 = .ok tx →
        ∃ full : FullTxn,
          (generateTransactions env (some req)).1
            = ⟨200, .response { LegacyTx := some full, EIP1559Tx := none }⟩ ∧
          full.Transaction = toTransactionData env tx) ∧
    (req.TxnType ≠ "legacy" →
      ∀ maxFee maxPriorityFee : Int,
        req.Txn.MaxFee ≠ "" → req.Txn.MaxPriorityFee ≠ "" →
        bigSetString10 req.Txn.MaxFee = some maxFee →
        bigSetString10 req.Txn.MaxPriorityFee = some maxPriorityFee →
        ∀ tx, (Block.GenerateEIP1559Transaction env "Account.json" (some req.Txn.ChainID)
            req.Txn.RecipientAddress (some amount) req.Txn.Nonce req.Txn.GasLimit
            (some maxFee) (some maxPriorityFee) req.Txn.Data
            (toBlockAccessList env req.Txn.AccessList)).1 = .ok tx →
          ∃ full : FullTxn,
            (generateTransactions env (some req)).1
              = ⟨200, .response { LegacyTx := none, EIP1559Tx := some full }⟩ ∧
            full.Transaction = toTransactionData env tx ∧
            tx.MaxFeePerGas = some maxFee ∧
            tx.MaxPriorityFeePerGas = some maxPriorityFee ∧
            full.Transaction.MaxFeePerGas = bigString (some maxFee) ∧
            full.Transaction.MaxPriorityFeePerGas = bigString (some maxPriorityFee)) := by
  constructor
  · intro ht tx htx
    rw [generateTransactions_legacy hbind ha hg ht]
    rcases hb : Block.GenerateLegacyTransaction env "Account.json" (some req.Txn.ChainID)
          req.Txn.RecipientAddress (some amount) req.Txn.Nonce req.Txn.GasLimit
          (some gasPrice) req.Txn.Data with ⟨r, tr⟩
    rw [hb] at htx
    simp only at htx
    subst htx
    exact ⟨_, rfl, rfl⟩
  · intro ht maxFee maxPriorityFee _ _ hmf hmp tx htx
    rw [generateTransactions_eip1559 hbind ha hg ht hmf hmp]
    obtain ⟨key, sig, _, _, htx1⟩ := Block.builder_ok_inv htx
    rcases hb : Block.GenerateEIP1559Transaction env "Account.json" (some req.Txn.ChainID)
            req.Txn.RecipientAddress (some amount) req.Txn.Nonce req.Txn.GasLimit
            (some maxFee) (some maxPriorityFee) req.Txn.Data
            (toBlockAccessList env req.Txn.AccessList) with ⟨r, tr⟩
    rw [hb] at htx
    simp only at htx
    subst htx
    refine ⟨_, rfl, rfl, ?_, ?_, ?_, ?_⟩
    · rw [htx1]
    · rw [htx1]
    · rw [(toTransactionData_fee env tx (by rw [htx1]; simp)).1, htx1]
    · rw [(toTransactionData_fee env tx (by rw [htx1]; simp)).2.1, htx1]

/-- C4 at concrete inputs: a legacy request and a fee-market request in `sampleEnv`. -/
theorem C4_generateTransactions_dispatch_witness :
    (∃ full : FullTxn,
      (generateTransactions sampleEnv (some sampleLegacyReq)).1
        = ⟨200, .response { LegacyTx := some full, EIP1559Tx := none }⟩ ∧
      full.Transaction = toTransactionData sampleEnv sampleLegacyReqTx) ∧
    (∃ full : FullTxn,
      (generateTransactions sampleEnv (some sampleFeeReq)).1
        = ⟨200, .response { LegacyTx := none, EIP1559Tx := some full }⟩ ∧
      full.Transaction = toTransactionData sampleEnv sampleFeeReqTx ∧
      sampleFeeReqTx.MaxFeePerGas = some 7 ∧
      sampleFeeReqTx.MaxPriorityFeePerGas = some 3 ∧
      full.Transaction.MaxFeePerGas = bigString (some 7) ∧
      full.Transaction.MaxPriorityFeePerGas = bigString (some 3)) :=
  ⟨(C4_generateTransactions_dispatch sampleEnv sampleLegacyReq 0 1000000000
      (by decide) (by decide) (by decide)).1 (by decide) sampleLegacyReqTx rfl,
   (C4_generateTransactions_dispatch sampleEnv sampleFeeReq 0 1000000000
      (by decide) (by decide) (by decide)).2 (by decide) 7 3 (by decide) (by decide)
      (by decide) (by decide) sampleFeeReqTx rfl⟩

/-- C5: a request that binds, whose amount and gas price parse, whose `txn_type`
is not `legacy` and whose `max_fee` or `max_priority_fee` is empty is answered
with status 200 and a response in which `legacy_tx` and `eip1559_tx` are both
absent; no file is read and nothing is signed. -/
theorem C5_generateTransactions_empty_success (env : Env) (req : TxnsType)
    (amount gasPrice : Int)
    (hbind : requiredOk req = true) (ha : bigSetString10 req.Txn.Amount = some amount)
    (hg : bigSetString10 req.Txn.GasPrice = some gasPrice) (ht : req.TxnType ≠ "legacy")
    (he : req.Txn.MaxFee = "" ∨ req.Txn.MaxPriorityFee = "") :
    generateTransactions env (some req)
      = (⟨200, .response { LegacyTx := none, EIP1559Tx := none }⟩, []) :=
  generateTransactions_empty hbind ha hg ht he

/-- C5 at a concrete input: `sampleNoFeeReq` has an empty `max_fee`. -/
theorem C5_generateTransactions_empty_success_witness :
    generateTransactions sampleEnv (some sampleNoFeeReq)
      = (⟨200, .response { LegacyTx := none, EIP1559Tx := none }⟩, []) :=
  C5_generateTransactions_empty_success sampleEnv sampleNoFeeReq 0 1000000000
    (by decide) (by decide) (by decide) (by decide) (Or.inl (by decide))

theorem legacyOutcome_trace (env : Env) (r : Except String Block.Transaction × List Event) :
    (legacyOutcome env r).2 = r.2 := by
  rcases r with ⟨r, tr⟩
  cases r <;> rfl

theorem eip1559Outcome_trace (env : Env) (r : Except String Block.Transaction × List Event) :
    (eip1559Outcome env r).2 = r.2 := by
  rcases r with ⟨r, tr⟩
  cases r <;> rfl

theorem legacyOutcome_status (env : Env) (r : Except String Block.Transaction × List Event) :
    (legacyOutcome env r).1.status = 500 ∨ (legacyOutcome env r).1.status = 200 := by
  rcases r with ⟨r, tr⟩
  cases r
  · exact Or.inl rfl
  · exact Or.inr rfl

/-- C6, as the code has it: when `amount` or `gas_price` is not a signed decimal
integer (an optional `+` or `-`, then one or more digits), the handler answers
with status 400 and an error body, reads no file and signs nothing. -/
theorem C6_generateTransactions_rejects_unparseable (env : Env) (req : TxnsType)
    (h : isSignedDecimal req.Txn.Amount = false ∨ isSignedDecimal req.Txn.GasPrice = false) :
    ∃ msg, generateTransactions env (some req) = (⟨400, .error msg⟩, []) := by
  by_cases hbind : requiredOk req = true
  · cases ha : bigSetString10 req.Txn.Amount with
    | none => exact ⟨_, by simp only [generateTransactions, ShouldBindJSON_ok hbind, ha]; rfl⟩
    | some amount =>
      cases hg : bigSetString10 req.Txn.GasPrice with
      | none =>
        exact ⟨_, by simp only [generateTransactions, ShouldBindJSON_ok hbind, ha, hg]; rfl⟩
      | some gasPrice =>
        rcases h with h | h
        · rw [(bigSetString10_eq_none_iff _).2 h] at ha
          cases ha
        · rw [(bigSetString10_eq_none_iff _).2 h] at hg
          cases hg
  · have hb : requiredOk req = false := by simpa using hbind
    exact ⟨_, by simp only [generateTransactions, ShouldBindJSON, hb]; rfl⟩

/-- C6 at a concrete input: the amount `12a`. -/
theorem C6_generateTransactions_rejects_unparseable_witness :
    ∃ msg, generateTransactions sampleEnv (some sampleBadAmountReq) = (⟨400, .error msg⟩, []) :=
  C6_generateTransactions_rejects_unparseable sampleEnv sampleBadAmountReq (Or.inl (by decide))

/-- C6 fails as stated: the amount `-5` is accepted by `SetString`, the handler
goes on to read the credential file and to sign a legacy payload of value -5,
and no environment makes it answer 400. -/
theorem C6_negative_amount_is_signed :
    sampleNegAmountReq.Txn.Amount = "-5" ∧
    bigSetString10 "-5" = some (-5) ∧
    (generateTransactions sampleEnv (some sampleNegAmountReq)).1.status = 200 ∧
    (generateTransactions sampleEnv (some sampleNegAmountReq)).2 =
      [.readFile "Account.json",
       .signTx (.legacy { Nonce := 1, GasPrice := some 1000000000, Gas := 21000,
                          To := some (sampleEnv.hexToAddress "0x01"), Value := some (-5) })
         (some 1) ⟨1⟩] ∧
    ¬ ∃ env : Env, (generateTransactions env (some sampleNegAmountReq)).1.status = 400 := by
  refine ⟨rfl, by decide, by decide, by decide, ?_⟩
  rintro ⟨env, h⟩
  have heq := @generateTransactions_legacy env sampleNegAmountReq (-5) 1000000000
    (by decide) (by decide) (by decide) (by decide)
  rw [heq] at h
  rcases legacyOutcome_status env (Block.GenerateLegacyTransaction env "Account.json"
        (some sampleNegAmountReq.Txn.ChainID) sampleNegAmountReq.Txn.RecipientAddress (some (-5))
        sampleNegAmountReq.Txn.Nonce sampleNegAmountReq.Txn.GasLimit (some 1000000000)
        sampleNegAmountReq.Txn.Data) with h5 | h2
  · rw [h5] at h; exact absurd h (by decide)
  · rw [h2] at h; exact absurd h (by decide)

theorem generateTransactions_unbound (env : Env) (req : TxnsType)
    (hbind : requiredOk req = false) :
    generateTransactions env (some req) = (⟨400, .error "required field missing"⟩, []) := by
  simp only [generateTransactions, ShouldBindJSON, hbind]
  rfl

theorem generateTransactions_bad_amount (env : Env) (req : TxnsType)
    (hbind : requiredOk req = true) (ha : bigSetString10 req.Txn.Amount = none) :
    generateTransactions env (some req) = (⟨400, .error "invalid amount"⟩, []) := by
  simp only [generateTransactions, ShouldBindJSON_ok hbind, ha]

theorem generateTransactions_bad_gas_price (env : Env) (req : TxnsType) (amount : Int)
    (hbind : requiredOk req = true) (ha : bigSetString10 req.Txn.Amount = some amount)
    (hg : bigSetString10 req.Txn.GasPrice = none) :
    generateTransactions env (some req) = (⟨400, .error "invalid gas price"⟩, []) := by
  simp only [generateTransactions, ShouldBindJSON_ok hbind, ha, hg]

/-- Members written by `toTransactionData` for a transaction without a fee cap
and without an access list. -/
theorem toTransactionData_plain (env : Env) (tx : Block.Transaction)
    (h : tx.MaxFeePerGas = none) (hal : tx.AccessList = none) :
    (toTransactionData env tx).AccessList = none ∧
    (toTransactionData env tx).MaxFeePerGas = "" ∧
    (toTransactionData env tx).MaxPriorityFeePerGas = "" ∧
    (toTransactionData env tx).Typ = "Legacy" := by
  cases hto : tx.To <;> by_cases hg : tx.GasPrice = none <;>
    simp [toTransactionData, h, hal, hto, hg]

/-- C7, as the code has it: a request with `txn_type` equal to `legacy` is built
by `GenerateLegacyTransaction`, which takes no access list and no fee-market
members. The handler's result does not depend on `access_list`, `max_fee` or
`max_priority_fee`; every payload it signs is legacy; the transaction built has
a nil access list and nil fee caps and is reported as `Legacy` without an
access list. -/
theorem C7_legacy_request_ignores_access_list (env : Env) (req : TxnsType)
    (ht : req.TxnType = "legacy") :
    (∀ (al : Slice AccessTuple) (mf mp : String),
      generateTransactions env
          (some { req with Txn := { req.Txn with AccessList := al, MaxFee := mf,
                                                 MaxPriorityFee := mp } })
        = generateTransactions env (some req)) ∧
    (∀ e ∈ (generateTransactions env (some req)).2,
      e.signedShape = none ∨ e.signedShape = some .legacy) ∧
    (∀ (amount gasPrice : Int) (tx : Block.Transaction),
      requiredOk req = true →
      bigSetString10 req.Txn.Amount = some amount →
      bigSetString10 req.Txn.GasPrice = some gasPrice →
      (Block.GenerateLegacyTransaction env "Account.json" (some req.Txn.ChainID)
          req.Txn.RecipientAddress (some amount) req.Txn.Nonce req.Txn.GasLimit
          (some gasPrice) req.Txn.Data).1 = .ok tx →
      tx.AccessList = none ∧ tx.MaxFeePerGas = none ∧ tx.MaxPriorityFeePerGas = none ∧
      (∀ c, (Block.buildEthTx tx c).shape = .legacy) ∧
      (∃ full : FullTxn,
        (generateTransactions env (some req)).1
          = ⟨200, .response { LegacyTx := some full, EIP1559Tx := none }⟩ ∧
        full.Transaction = toTransactionData env tx ∧
        full.Transaction.AccessList = none ∧ full.Transaction.Typ = "Legacy")) := by
  refine ⟨?_, ?_, ?_⟩
  · intro al mf mp
    by_cases hbind : requiredOk req = true
    · cases ha : bigSetString10 req.Txn.Amount with
      | none =>
        rw [generateTransactions_bad_amount env req hbind ha]
        exact generateTransactions_bad_amount env _ hbind ha
      | some amount =>
        cases hg : bigSetString10 req.Txn.GasPrice with
        | none =>
          rw [generateTransactions_bad_gas_price env req amount hbind ha hg]
          exact generateTransactions_bad_gas_price env _ amount hbind ha hg
        | some gasPrice =>
          rw [generateTransactions_legacy hbind ha hg ht]
          exact @generateTransactions_legacy env _ amount gasPrice hbind ha hg ht
    · have hb : requiredOk req = false := by simpa using hbind
      rw [generateTransactions_unbound env req hb]
      exact generateTransactions_unbound env _ hb
  · intro e he
    rcases generateTransactions_cases env req with h | h | h
    · rcases h with ⟨msg, h⟩ | h
      · rw [h] at he; cases he
      · rw [h] at he; cases he
    · obtain ⟨_, _, amount, gasPrice, _, _, heq⟩ := h
      rw [heq, legacyOutcome_trace] at he
      have htr := @Block.builder_trace env "Account.json" (some req.Txn.ChainID)
        ⟨some req.Txn.ChainID, req.Txn.Nonce, some (env.hexToAddress req.Txn.RecipientAddress),
          some amount, req.Txn.Data, req.Txn.GasLimit, some gasPrice, none, none, none, none,
          none, none⟩
      have htr2 : (Block.GenerateLegacyTransaction env "Account.json" (some req.Txn.ChainID)
          req.Txn.RecipientAddress (some amount) req.Txn.Nonce req.Txn.GasLimit
          (some gasPrice) req.Txn.Data).2 = _ := htr
      rw [htr2] at he
      cases hk : (Block.loadKey env "Account.json").1 with
      | error err =>
        rw [hk] at he
        simp only [List.mem_singleton] at he
        subst he
        exact Or.inl rfl
      | ok k =>
        rw [hk] at he
        simp only [List.mem_cons, List.mem_singleton, List.not_mem_nil, or_false] at he
        rcases he with he | he
        · subst he; exact Or.inl rfl
        · subst he; exact Or.inr rfl
    · exact absurd ht h.2.1
  · intro amount gasPrice tx hbind ha hg htx
    obtain ⟨key, sig, _, _, htx1⟩ := Block.builder_ok_inv htx
    have h1 : tx.AccessList = none := by rw [htx1]
    have h2 : tx.MaxFeePerGas = none := by rw [htx1]
    have h3 : tx.MaxPriorityFeePerGas = none := by rw [htx1]
    refine ⟨h1, h2, h3, ?_, ?_⟩
    · intro c
      simp [Block.buildEthTx, h1, h2, Slice.len, types.TxData.shape]
    · rw [generateTransactions_legacy hbind ha hg ht]
      rcases hb : Block.GenerateLegacyTransaction env "Account.json" (some req.Txn.ChainID)
          req.Txn.RecipientAddress (some amount) req.Txn.Nonce req.Txn.GasLimit
          (some gasPrice) req.Txn.Data with ⟨r, tr⟩
      rw [hb] at htx
      simp only at htx
      subst htx
      have hp := toTransactionData_plain env tx h2 h1
      exact ⟨_, rfl, rfl, hp.1, hp.2.2.2⟩

/-- C7 at a concrete input: a legacy request carrying three access tuples and both
fee-market members. -/
theorem C7_legacy_request_ignores_access_list_witness :
    generateTransactions sampleEnv (some sampleLegacyListReq)
        = generateTransactions sampleEnv (some sampleLegacyReq) ∧
    sampleLegacyReqTx.AccessList = none :=
  ⟨(C7_legacy_request_ignores_access_list sampleEnv sampleLegacyReq (by decide)).1
      sampleFeeReq.Txn.AccessList "7" "3",
   ((C7_legacy_request_ignores_access_list sampleEnv sampleLegacyReq (by decide)).2.2
      0 1000000000 sampleLegacyReqTx (by decide) (by decide) (by decide) rfl).1⟩

/-- C7 fails as stated: `sampleLegacyListReq` has `txn_type` `legacy`, three access
tuples and both fee-market members; the transaction built has no access list,
and a legacy payload is signed although the fee-market members are present. -/
theorem C7_access_list_dropped :
    sampleLegacyListReq.TxnType = "legacy" ∧
    sampleLegacyListReq.Txn.AccessList.len = 3 ∧
    sampleLegacyListReq.Txn.MaxFee = "7" ∧ sampleLegacyListReq.Txn.MaxPriorityFee = "3" ∧
    (Block.GenerateLegacyTransaction sampleEnv "Account.json" (some 1) "0x01" (some 0) 1 21000
        (some 1000000000) []).1 = .ok sampleLegacyReqTx ∧
    sampleLegacyReqTx.AccessList = none ∧
    generateTransactions sampleEnv (some sampleLegacyListReq) =
      (⟨200, .response { LegacyTx := some ⟨toTransactionData sampleEnv sampleLegacyReqTx, "0x"⟩ }⟩,
       [.readFile "Account.json",
        .signTx (.legacy { Nonce := 1, GasPrice := some 1000000000, Gas := 21000,
                           To := some (sampleEnv.hexToAddress "0x01"), Value := some 0 })
          (some 1) ⟨1⟩]) ∧
    (toTransactionData sampleEnv sampleLegacyReqTx).AccessList = none ∧
    (toTransactionData sampleEnv sampleLegacyReqTx).Typ = "Legacy" := by
  refine ⟨rfl, rfl, rfl, rfl, rfl, rfl, by decide, by decide, by decide⟩

/-- C8, as the code has it: every builder stores a non-nil `To`, the address that
`common.HexToAddress` decodes from the recipient text, whether or not the text
is empty. -/
theorem C8_builders_always_set_To (env : Env) (accountPath : String) (chainID : Option Int)
    (recipient : String) (amount : Option Int) (nonce gasLimit : Nat) (data : List Nat)
    (accessList : Block.AccessList) :
    (∀ gasPrice tx,
      (Block.GenerateLegacyTransaction env accountPath chainID recipient amount nonce gasLimit
        gasPrice data).1 = .ok tx → tx.To = some (env.hexToAddress recipient)) ∧
    (∀ gasPrice tx,
      (Block.GenerateEIP2930Transaction env accountPath chainID recipient amount nonce gasLimit
        gasPrice data accessList).1 = .ok tx → tx.To = some (env.hexToAddress recipient)) ∧
    (∀ maxFeePerGas maxPriorityFeePerGas tx,
      (Block.GenerateEIP1559Transaction env accountPath chainID recipient amount nonce gasLimit
        maxFeePerGas maxPriorityFeePerGas data accessList).1 = .ok tx →
      tx.To = some (env.hexToAddress recipient)) := by
  refine ⟨?_, ?_, ?_⟩
  · intro gasPrice tx h
    obtain ⟨key, sig, _, _, rfl⟩ := Block.builder_ok_inv h
    rfl
  · intro gasPrice tx h
    obtain ⟨key, sig, _, _, rfl⟩ := Block.builder_ok_inv h
    rfl
  · intro maxFeePerGas maxPriorityFeePerGas tx h
    obtain ⟨key, sig, _, _, rfl⟩ := Block.builder_ok_inv h
    rfl

/-- C8 at concrete inputs: recipient `0x01` in `sampleEnv`. -/
theorem C8_builders_always_set_To_witness :
    sampleBuiltLegacy.To = some (sampleEnv.hexToAddress "0x01") ∧
    sampleBuiltAccess.To = some (sampleEnv.hexToAddress "0x01") ∧
    sampleBuiltFee.To = some (sampleEnv.hexToAddress "0x01") :=
  have h := C8_builders_always_set_To sampleEnv "Account.json" (some 1) "0x01" (some 0)
    0 21000 [] (some [⟨common.Address.zero, [common.Hash.zero]⟩])
  ⟨h.1 (some 5) sampleBuiltLegacy rfl, h.2.1 (some 5) sampleBuiltAccess rfl,
   h.2.2 (some 7) (some 3) sampleBuiltFee rfl⟩

/-- C8 fails as stated: called with the empty recipient, each builder returns a
transaction whose `To` is the zero address, not nil. -/
theorem C8_empty_recipient_is_zero_address :
    (∃ tx, (Block.GenerateLegacyTransaction sampleEnv "Account.json" (some 1) "" (some 0) 0
        21000 (some 5) []).1 = .ok tx ∧ tx.To = some common.Address.zero ∧ tx.To ≠ none) ∧
    (∃ tx, (Block.GenerateEIP2930Transaction sampleEnv "Account.json" (some 1) "" (some 0) 0
        21000 (some 5) [] (some [⟨common.Address.zero, []⟩])).1 = .ok tx ∧
      tx.To = some common.Address.zero ∧ tx.To ≠ none) ∧
    (∃ tx, (Block.GenerateEIP1559Transaction sampleEnv "Account.json" (some 1) "" (some 0) 0
        21000 (some 7) (some 3) [] none).1 = .ok tx ∧
      tx.To = some common.Address.zero ∧ tx.To ≠ none) :=
  ⟨⟨_, rfl, by decide, by decide⟩, ⟨_, rfl, by decide, by decide⟩,
   ⟨_, rfl, by decide, by decide⟩⟩

theorem convertAccessList_eq_map (accessList : Block.AccessList) :
    Block.convertAccessList accessList
      = accessList.elems.map (fun tuple => ⟨tuple.Address, tuple.StorageKeys⟩) := by
  unfold Block.convertAccessList
  rw [fillByIndex_eq_map]

theorem toBlockAccessList_elems (env : Env) (apiList : Slice AccessTuple) :
    (toBlockAccessList env apiList).elems
      = apiList.elems.map
          (fun tuple => ⟨env.hexToAddress tuple.Address, tuple.StorageKeys.map env.hexToHash⟩) := by
  unfold toBlockAccessList
  by_cases h : apiList.len = 0
  · rw [if_pos h]
    cases apiList with
    | none => rfl
    | some xs =>
      cases xs with
      | nil => rfl
      | cons x xs => simp [Slice.len] at h
  · rw [if_neg h]
    simp only [Slice.elems, fillByIndex_eq_map]

/-- C9: the access list reaches the encoder in order and without deduplication.
For every API list, `convertAccessList (toBlockAccessList l)` has `len l`
tuples; tuple `i` holds the address decoded from `l[i].Address` and as many
storage keys as `l[i].StorageKeys`; key `j` of tuple `i` is the hash decoded
from `l[i].StorageKeys[j]`. -/
theorem C9_access_list_order_preserved (env : Env) (l : Slice AccessTuple) :
    (Block.convertAccessList (toBlockAccessList env l)).length = l.len ∧
    (∀ i : Nat,
      ((Block.convertAccessList (toBlockAccessList env l))[i]?).map
          (fun u : types.AccessTuple => u.Address)
        = (l.elems[i]?).map (fun t : AccessTuple => env.hexToAddress t.Address)) ∧
    (∀ i : Nat,
      ((Block.convertAccessList (toBlockAccessList env l))[i]?).map
          (fun u : types.AccessTuple => u.StorageKeys.length)
        = (l.elems[i]?).map (fun t : AccessTuple => t.StorageKeys.length)) ∧
    (∀ i j : Nat,
      ((Block.convertAccessList (toBlockAccessList env l))[i]?).bind
          (fun u : types.AccessTuple => u.StorageKeys[j]?)
        = ((l.elems[i]?).bind (fun t : AccessTuple => t.StorageKeys[j]?)).map env.hexToHash) ∧
    Block.convertAccessList (toBlockAccessList env l)
      = l.elems.map
          (fun t => ⟨env.hexToAddress t.Address, t.StorageKeys.map env.hexToHash⟩) := by
  have hmap : Block.convertAccessList (toBlockAccessList env l)
      = l.elems.map
          (fun t => ⟨env.hexToAddress t.Address, t.StorageKeys.map env.hexToHash⟩) := by
    rw [convertAccessList_eq_map, toBlockAccessList_elems, List.map_map]
    rfl
  rw [hmap]
  refine ⟨?_, ?_, ?_, ?_, rfl⟩
  · cases l <;> simp [Slice.len, Slice.elems]
  · intro i
    cases h : l.elems[i]? <;> simp [List.getElem?_map, h]
  · intro i
    cases h : l.elems[i]? <;> simp [List.getElem?_map, h]
  · intro i j
    cases h : l.elems[i]? with
    | none => simp [List.getElem?_map, h]
    | some t =>
      simp only [List.getElem?_map, h, Option.map_some', Option.some_bind]

/-- C9 at a concrete input: the list of `sampleFeeReq` repeats a storage key inside
its first tuple and repeats its second tuple; all of them arrive, in place. -/
theorem C9_access_list_order_preserved_witness :
    (Block.convertAccessList (toBlockAccessList sampleEnv sampleFeeReq.Txn.AccessList)).length
      = 3 ∧
    Block.convertAccessList (toBlockAccessList sampleEnv sampleFeeReq.Txn.AccessList)
      = [⟨sampleEnv.hexToAddress "0x02",
          [sampleEnv.hexToHash "0x04", sampleEnv.hexToHash "0x03", sampleEnv.hexToHash "0x04"]⟩,
         ⟨sampleEnv.hexToAddress "0x02", []⟩, ⟨sampleEnv.hexToAddress "0x02", []⟩] :=
  ⟨(C9_access_list_order_preserved sampleEnv sampleFeeReq.Txn.AccessList).1,
   (C9_access_list_order_preserved sampleEnv sampleFeeReq.Txn.AccessList).2.2.2.2⟩

theorem requiredOk_chainID {req : TxnsType} (h : requiredOk req = true) :
    req.Txn.ChainID ≠ 0 := by
  simp only [requiredOk, Bool.and_eq_true, decide_eq_true_eq] at h
  exact h.2

/-- Chain id handed to the signer by every signing call of a builder. -/
theorem builder_signedChainID {env : Env} {accountPath : String} {chainID : Option Int}
    {tx : Block.Transaction} {e : Event} {c : Option Int}
    (he : e ∈ (match Block.loadKey env accountPath with
          | (.error err, tr) => ((.error err : Except String Block.Transaction), tr)
          | (.ok privateKey, tr) =>
            ((Block.signTransaction env tx privateKey chainID).ret,
              tr ++ (Block.signTransaction env tx privateKey chainID).trace)).2)
    (hc : e.signedChainID = some c) : c = chainID := by
  have he := Eq.mp (congrArg (fun l => e ∈ l) (@Block.builder_trace env accountPath chainID tx)) he
  simp only at he
  cases hk : (Block.loadKey env accountPath).1 with
  | error err =>
    rw [hk] at he
    simp only [List.mem_singleton] at he
    subst he
    cases hc
  | ok k =>
    rw [hk] at he
    simp only [List.mem_cons, List.mem_singleton, List.not_mem_nil, or_false] at he
    rcases he with he | he
    · subst he; cases hc
    · subst he
      simp only [Event.signedChainID, Option.some.injEq] at hc
      exact hc.symm

/-- Only a positive chain id is signed in `strictEnv`. -/
theorem strictEnv_signs_positive (t : types.TxData) (n : Int) (key : PrivateKey)
    (sig : types.Signature) (h : strictEnv.signTx t (some n) key = .ok sig) : 0 < n := by
  by_cases hn : 0 < n
  · exact hn
  · have he : strictEnv.signTx t (some n) key = .error "invalid chainID" := by
      simp [strictEnv, hn]
    rw [he] at h
    cases h

/-- Chain id written by `toTransactionData`. -/
theorem toTransactionData_ChainID (env : Env) (tx : Block.Transaction) :
    (toTransactionData env tx).ChainID = bigString tx.ChainID := by
  unfold toTransactionData
  cases tx.To <;> (simp only []; split_ifs <;> rfl)

/-- A transaction appears in the response only if a builder returned it: the
request passed the `required` validation, the library signed under the request's
chain id, and that chain id is the one reported. -/
theorem reported_transaction_signed (env : Env) (req : TxnsType) (r : TransactionResponse)
    (full : FullTxn) (hr : (generateTransactions env (some req)).1.body = .response r)
    (hf : r.LegacyTx = some full ∨ r.EIP1559Tx = some full) :
    requiredOk req = true ∧
    full.Transaction.ChainID = bigString (some req.Txn.ChainID) ∧
    ∃ t key sig, env.signTx t (some req.Txn.ChainID) key = .ok sig := by
  rcases generateTransactions_cases env req with h | h | h
  · rcases h with ⟨msg, h⟩ | h
    · rw [h] at hr
      cases hr
    · rw [h] at hr
      simp only [Body.response.injEq] at hr
      subst hr
      rcases hf with hf | hf <;> cases hf
  · obtain ⟨hbind, _, amount, gasPrice, _, _, heq⟩ := h
    rw [heq] at hr
    rcases hb : Block.GenerateLegacyTransaction env "Account.json" (some req.Txn.ChainID)
        req.Txn.RecipientAddress (some amount) req.Txn.Nonce req.Txn.GasLimit
        (some gasPrice) req.Txn.Data with ⟨res, tr⟩
    rw [hb] at hr
    cases res with
    | error err => cases hr
    | ok tx =>
      have htx : (Block.GenerateLegacyTransaction env "Account.json" (some req.Txn.ChainID)
        req.Txn.RecipientAddress (some amount) req.Txn.Nonce req.Txn.GasLimit
        (some gasPrice) req.Txn.Data).1 = .ok tx := by rw [hb]
      obtain ⟨key, sig, _, hs, htx1⟩ := Block.builder_ok_inv htx
      simp only [legacyOutcome, Body.response.injEq] at hr
      subst hr
      rcases hf with hf | hf
      · simp only [Option.some.injEq] at hf
        subst hf
        refine ⟨hbind, ?_, _, key, sig, hs⟩
        rw [toTransactionData_ChainID, htx1]
      · cases hf
  · obtain ⟨hbind, _, amount, gasPrice, maxFee, maxPriorityFee, _, _, _, _, heq⟩ := h
    rw [heq] at hr
    rcases hb : Block.GenerateEIP1559Transaction env "Account.json" (some req.Txn.ChainID)
        req.Txn.RecipientAddress (some amount) req.Txn.Nonce req.Txn.GasLimit
        (some maxFee) (some maxPriorityFee) req.Txn.Data
        (toBlockAccessList env req.Txn.AccessList) with ⟨res, tr⟩
    rw [hb] at hr
    cases res with
    | error err => cases hr
    | ok tx =>
      have htx : (Block.GenerateEIP1559Transaction env "Account.json" (some req.Txn.ChainID)
        req.Txn.RecipientAddress (some amount) req.Txn.Nonce req.Txn.GasLimit
        (some maxFee) (some maxPriorityFee) req.Txn.Data
        (toBlockAccessList env req.Txn.AccessList)).1 = .ok tx := by rw [hb]
      obtain ⟨key, sig, _, hs, htx1⟩ := Block.builder_ok_inv htx
      simp only [eip1559Outcome, Body.response.injEq] at hr
      subst hr
      rcases hf with hf | hf
      · cases hf
      · simp only [Option.some.injEq] at hf
        subst hf
        refine ⟨hbind, ?_, _, key, sig, hs⟩
        rw [toTransactionData_ChainID, htx1]

/-- Every signing call of the handler carries the request's chain id. -/
theorem handler_signedChainID (env : Env) (req : TxnsType) (e : Event) (c : Option Int)
    (he : e ∈ (generateTransactions env (some req)).2) (hc : e.signedChainID = some c) :
    requiredOk req = true ∧ c = some req.Txn.ChainID := by
  rcases generateTransactions_cases env req with h | h | h
  · rcases h with ⟨msg, h⟩ | h
    · rw [h] at he
      cases he
    · rw [h] at he
      cases he
  · obtain ⟨hbind, _, amount, gasPrice, _, _, heq⟩ := h
    rw [heq, legacyOutcome_trace] at he
    exact ⟨hbind, builder_signedChainID he hc⟩
  · obtain ⟨hbind, _, amount, gasPrice, maxFee, maxPriorityFee, _, _, _, _, heq⟩ := h
    rw [heq, eip1559Outcome_trace] at he
    exact ⟨hbind, builder_signedChainID he hc⟩

/-- C10, as the code has it: the chain id handed to `signTransaction` is non-nil,
equals the request's `chain_id` and is not zero, which is all the handler
checks; a transaction is reported only after the library signed under that
chain id, and it is reported with that chain id; hence, when the library's
signer signs only under a positive chain id, every transaction the handler
signs has a strictly positive chain id. -/
theorem C10_signed_chain_id (env : Env) (req : TxnsType) :
    (∀ e ∈ (generateTransactions env (some req)).2, ∀ c, e.signedChainID = some c →
      c = some req.Txn.ChainID ∧ req.Txn.ChainID ≠ 0) ∧
    (∀ r full, (generateTransactions env (some req)).1.body = .response r →
      r.LegacyTx = some full ∨ r.EIP1559Tx = some full →
      full.Transaction.ChainID = bigString (some req.Txn.ChainID) ∧ req.Txn.ChainID ≠ 0 ∧
      ∃ t key sig, env.signTx t (some req.Txn.ChainID) key = .ok sig) ∧
    ((∀ t (n : Int) key sig, env.signTx t (some n) key = .ok sig → 0 < n) →
      ∀ r full, (generateTransactions env (some req)).1.body = .response r →
        r.LegacyTx = some full ∨ r.EIP1559Tx = some full →
        0 < req.Txn.ChainID ∧
        full.Transaction.ChainID = bigString (some req.Txn.ChainID)) := by
  refine ⟨?_, ?_, ?_⟩
  · intro e he c hc
    obtain ⟨hbind, hce⟩ := handler_signedChainID env req e c he hc
    exact ⟨hce, requiredOk_chainID hbind⟩
  · intro r full hr hf
    obtain ⟨hbind, hcid, hsig⟩ := reported_transaction_signed env req r full hr hf
    exact ⟨hcid, requiredOk_chainID hbind, hsig⟩
  · intro hstrict r full hr hf
    obtain ⟨_, hcid, t, key, sig, hs⟩ := reported_transaction_signed env req r full hr hf
    exact ⟨hstrict t req.Txn.ChainID key sig hs, hcid⟩

/-- C10 at a concrete input: `sampleLegacyReq` in `strictEnv`, whose signer signs
only under a positive chain id; the signing call carries chain id 1 and the
transaction reported has a positive chain id. -/
theorem C10_signed_chain_id_witness :
    ((some 1 : Option Int) = some sampleLegacyReq.Txn.ChainID ∧
      sampleLegacyReq.Txn.ChainID ≠ 0) ∧
    (0 < sampleLegacyReq.Txn.ChainID ∧
      (toTransactionData strictEnv sampleLegacyReqTx).ChainID
        = bigString (some sampleLegacyReq.Txn.ChainID)) :=
  ⟨(C10_signed_chain_id strictEnv sampleLegacyReq).1
      (.signTx (sampleLegacyPayload 0) (some 1) ⟨1⟩) (by decide) (some 1) rfl,
   (C10_signed_chain_id strictEnv sampleLegacyReq).2.2 strictEnv_signs_positive
      ⟨some ⟨toTransactionData strictEnv sampleLegacyReqTx, "0x"⟩, none⟩
      ⟨toTransactionData strictEnv sampleLegacyReqTx, "0x"⟩ (by decide) (Or.inl rfl)⟩

/-- C10 fails as stated: `sampleNegChainReq` has `chain_id` -1 and passes the
`required` validation and the parsing; in every environment the handler passes
chain id -1 to `GenerateLegacyTransaction`, and wherever the key loads it hands
chain id -1 to `signTransaction`, also when the signer refuses it. -/
theorem C10_negative_chain_id_handed_to_signer :
    sampleNegChainReq.Txn.ChainID = -1 ∧
    requiredOk sampleNegChainReq = true ∧
    bigSetString10 sampleNegChainReq.Txn.Amount = some 0 ∧
    bigSetString10 sampleNegChainReq.Txn.GasPrice = some 1000000000 ∧
    (∀ env : Env, generateTransactions env (some sampleNegChainReq) =
      legacyOutcome env (Block.GenerateLegacyTransaction env "Account.json" (some (-1)) "0x01"
        (some 0) 1 21000 (some 1000000000) [])) ∧
    (∀ (env : Env) (k : PrivateKey), (Block.loadKey env "Account.json").1 = .ok k →
      ∃ t, Event.signTx t (some (-1)) k ∈
        (generateTransactions env (some sampleNegChainReq)).2) ∧
    (generateTransactions strictEnv (some sampleNegChainReq)).2 =
      [.readFile "Account.json", .signTx (sampleLegacyPayload 0) (some (-1)) ⟨1⟩] ∧
    ¬ ∀ e ∈ (generateTransactions strictEnv (some sampleNegChainReq)).2, ∀ c,
        e.signedChainID = some c → ∃ n : Int, c = some n ∧ 0 < n := by
  have heq : ∀ env : Env, generateTransactions env (some sampleNegChainReq) =
      legacyOutcome env (Block.GenerateLegacyTransaction env "Account.json" (some (-1)) "0x01"
        (some 0) 1 21000 (some 1000000000) []) := fun env =>
    @generateTransactions_legacy env sampleNegChainReq 0 1000000000
      (by decide) (by decide) (by decide) (by decide)
  refine ⟨rfl, by decide, by decide, by decide, heq, ?_, by decide, ?_⟩
  · intro env k hk
    have htr : (Block.GenerateLegacyTransaction env "Account.json" (some (-1)) "0x01"
        (some 0) 1 21000 (some 1000000000) []).2 = _ :=
      @Block.builder_trace env "Account.json" (some (-1))
        ⟨some (-1), 1, some (env.hexToAddress "0x01"), some 0, [], 21000, some 1000000000,
          none, none, none, none, none, none⟩
    rw [heq env, legacyOutcome_trace, htr, hk]
    exact ⟨_, List.mem_cons_of_mem _ (List.mem_singleton.2 rfl)⟩
  · intro h
    obtain ⟨n, hn, hpos⟩ :=
      h (.signTx (sampleLegacyPayload 0) (some (-1)) ⟨1⟩) (by decide) (some (-1)) rfl
    simp only [Option.some.injEq] at hn
    omega

/-- The switch of `Hash` on a transaction whose `V`, `R`, `S` were just set is the
switch of `signTransaction` on the transaction before, with the signature added,
provided the chain id stored in the transaction is the one given to the signer. -/
theorem hashEthTx_signed (tx : Block.Transaction) (sig : types.Signature) :
    Block.hashEthTx { tx with V := some sig.v, R := some sig.r, S := some sig.s }
      = (Block.buildEthTx tx tx.ChainID).withSignature sig := by
  unfold Block.hashEthTx Block.buildEthTx
  by_cases hfee : tx.MaxFeePerGas ≠ none
  · rw [if_pos hfee, if_pos hfee]
    rfl
  · by_cases hal : tx.AccessList ≠ none ∧ tx.AccessList.len > 0
    · rw [if_neg hfee, if_neg hfee, if_pos hal, if_pos hal]
      rfl
    · rw [if_neg hfee, if_neg hfee, if_neg hal, if_neg hal]
      rfl

/-- C11: `Hash` re-derives the transaction that was signed. When the chain id
stored in the transaction is the `chainID` argument and `signTransaction`
succeeds, `Hash` on the result takes the branch `signTransaction` took, its
payload is the signed payload with the `V`, `R`, `S` that signing produced, and
the hash returned is the hash of that payload. -/
theorem C11_Hash_rederives_signed (env : Env) (tx tx1 : Block.Transaction) (key : PrivateKey)
    (chainID : Option Int) (hc : tx.ChainID = chainID)
    (h : (Block.signTransaction env tx key chainID).ret = .ok tx1) :
    ∃ sig, env.signTx (Block.buildEthTx tx chainID) chainID key = .ok sig ∧
      tx1.V = some sig.v ∧ tx1.R = some sig.r ∧ tx1.S = some sig.s ∧
      (Block.hashEthTx tx1).shape = (Block.buildEthTx tx chainID).shape ∧
      Block.hashEthTx tx1 = (Block.buildEthTx tx chainID).withSignature sig ∧
      Block.Hash env tx1 = env.txHash ((Block.buildEthTx tx chainID).withSignature sig) := by
  obtain ⟨sig, hs, htx⟩ := Block.signTransaction_ok_inv h
  subst hc
  have hpay := hashEthTx_signed tx sig
  rw [← htx] at hpay
  refine ⟨sig, hs, by rw [htx], by rw [htx], by rw [htx], ?_, hpay, ?_⟩
  · rw [hpay]
    cases Block.buildEthTx tx tx.ChainID <;> rfl
  · unfold Block.Hash
    rw [hpay]

/-- C11 at concrete inputs: the three shapes signed in `sampleEnv` on chain 1. -/
theorem C11_Hash_rederives_signed_witness :
    (∃ sig, sampleEnv.signTx (Block.buildEthTx sampleFeeTx (some 1)) (some 1) ⟨1⟩ = .ok sig ∧
      Block.hashEthTx { sampleFeeTx with V := some 1, R := some 2, S := some 3 }
        = (Block.buildEthTx sampleFeeTx (some 1)).withSignature sig) ∧
    (∃ sig, sampleEnv.signTx (Block.buildEthTx sampleAccessTx (some 1)) (some 1) ⟨1⟩ = .ok sig ∧
      Block.hashEthTx { sampleAccessTx with V := some 1, R := some 2, S := some 3 }
        = (Block.buildEthTx sampleAccessTx (some 1)).withSignature sig) ∧
    (∃ sig, sampleEnv.signTx (Block.buildEthTx sampleLegacyTx (some 1)) (some 1) ⟨1⟩ = .ok sig ∧
      Block.hashEthTx { sampleLegacyTx with V := some 1, R := some 2, S := some 3 }
        = (Block.buildEthTx sampleLegacyTx (some 1)).withSignature sig) :=
  ⟨(C11_Hash_rederives_signed sampleEnv sampleFeeTx
      { sampleFeeTx with V := some 1, R := some 2, S := some 3 } ⟨1⟩ (some 1) rfl rfl).imp
      (fun _ hw => ⟨hw.1, hw.2.2.2.2.2.1⟩),
   (C11_Hash_rederives_signed sampleEnv sampleAccessTx
      { sampleAccessTx with V := some 1, R := some 2, S := some 3 } ⟨1⟩ (some 1) rfl rfl).imp
      (fun _ hw => ⟨hw.1, hw.2.2.2.2.2.1⟩),
   (C11_Hash_rederives_signed sampleEnv sampleLegacyTx
      { sampleLegacyTx with V := some 1, R := some 2, S := some 3 } ⟨1⟩ (some 1) rfl rfl).imp
      (fun _ hw => ⟨hw.1, hw.2.2.2.2.2.1⟩)⟩
